import Mathlib

/-!
Verification of the task-state engine of the FirstExample to-do application
(React + TypeScript).  The definitions below are a shallow embedding of the
TypeScript sources:

  * `src/types/todo.ts`   — the data model (`Todo`, `CompletedLogEntry`,
    `ActivityEntry`, `TodoAppState`);
  * `src/lib/todos.ts`    — pure task operations (`sortTodos`, `createTodo`,
    `addTodo`, `toggleTodo`, `deleteTodo`, `coerceTodos`);
  * `src/lib/storage.ts`  — the persistence codec (`parseState`,
    `coerceCompletedLog`, `coerceActivity`, `coerceSequence`,
    `getTodoStorageKeyForUser`, `loadTodoState`, `saveTodoState`);
  * `src/App.tsx`         — the state-transition handlers (`handleSubmit`,
    `handleToggle`, `handleDelete` state updaters, `prependActivity`,
    `prependCompletedLog`, `createActivity`, `isSameLocalDay`,
    `insightStats`).

Modelling conventions:

  * JavaScript numbers are modelled by `JNum`: a finite value (an integer —
    every number this application produces is an integer count or an integer
    millisecond timestamp) or one of the non-finite values `NaN`, `Infinity`,
    `-Infinity`.  JSON text cannot denote `NaN`, but `JSON.parse` does
    produce `Infinity` for overflowing literals such as `1e999`, so decoded
    data can carry non-finite numbers.
  * Untyped JSON data (the result of `JSON.parse`) is modelled by `JVal`.
    A missing object property (`undefined` in JavaScript) is modelled by
    `Option.none` on field lookup.
  * `String.prototype.localeCompare` is modelled as lexicographic comparison
    of strings by code point; `trim`/`toLowerCase` are modelled over the
    character list (`jsTrim`/`jsToLower`), with Lean's whitespace and
    lower-casing tables standing in for the JavaScript ones.
  * `Array.prototype.sort` (a stable sort) is modelled by a stable insertion
    sort driven by the comparator's sign, and `JSON.stringify` followed by
    `JSON.parse` is modelled by `jsonRT`, which maps non-finite numbers to
    `null` (exactly what stringification does to them).
-/

/-- A JavaScript number: a finite (integer) value, `NaN`, or `±Infinity`. -/
inductive JNum where
  | fin (v : Int)
  | nan
  | inf
  | ninf
deriving DecidableEq, Repr

namespace JNum

/-- `Number.isFinite`. -/
def isFinite : JNum → Bool
  | fin _ => true
  | _ => false

/-- JavaScript strict equality `===` on numbers (`NaN === NaN` is false). -/
def jsEq : JNum → JNum → Bool
  | fin a, fin b => a == b
  | inf, inf => true
  | ninf, ninf => true
  | _, _ => false

/-- JavaScript strict inequality `!==` on numbers. -/
def jsNe (a b : JNum) : Bool := !(jsEq a b)

/-- JavaScript unary negation. -/
def jsNeg : JNum → JNum
  | fin a => fin (-a)
  | nan => nan
  | inf => ninf
  | ninf => inf

/-- JavaScript addition. -/
def jsAdd : JNum → JNum → JNum
  | fin a, fin b => fin (a + b)
  | nan, _ => nan
  | _, nan => nan
  | inf, ninf => nan
  | ninf, inf => nan
  | inf, _ => inf
  | _, inf => inf
  | ninf, _ => ninf
  | _, ninf => ninf

/-- JavaScript subtraction. -/
def jsSub (a b : JNum) : JNum := jsAdd a (jsNeg b)

/-- Whether a comparator result counts as strictly positive (`NaN > 0` is
false in JavaScript). -/
def isPos : JNum → Bool
  | fin v => 0 < v
  | inf => true
  | _ => false

/-- JavaScript strict `>` on numbers: false whenever either side is `NaN`
or the two sides are equal; `Infinity` exceeds every finite value and
`-Infinity`, and every finite value exceeds `-Infinity`. -/
def jsGt : JNum → JNum → Bool
  | fin a, fin b => b < a
  | inf, fin _ => true
  | inf, ninf => true
  | fin _, ninf => true
  | _, _ => false

/-- JavaScript number-to-string coercion, as used in template literals.
Only integer values ever reach this function in the application. -/
def toStr : JNum → String
  | fin v => toString v
  | nan => "NaN"
  | inf => "Infinity"
  | ninf => "-Infinity"

end JNum

/-- `String.prototype.trim`, modelled directly over the character list
(drop whitespace from both ends). -/
def jsTrim (s : String) : String :=
  ⟨((s.data.dropWhile Char.isWhitespace).reverse.dropWhile
      Char.isWhitespace).reverse⟩

/-- `String.prototype.toLowerCase`, modelled character-wise. -/
def jsToLower (s : String) : String := ⟨s.data.map Char.toLower⟩

/-- Lexicographic comparison of character lists by code point. -/
def charsLt : List Char → List Char → Bool
  | [], [] => false
  | [], _ :: _ => true
  | _ :: _, [] => false
  | a :: as, b :: bs =>
    if a.toNat < b.toNat then true
    else if b.toNat < a.toNat then false
    else charsLt as bs

/-- Lexicographic strict order on strings by code point. -/
def strLtB (a b : String) : Bool := charsLt a.data b.data

/-- Result of `a.localeCompare(b)`, modelled as lexicographic string
comparison (the host's locale collation is outside the model; the ids this
application compares are digit/hyphen strings). -/
def strCompare (a b : String) : Int :=
  if strLtB a b then -1 else if strLtB b a then 1 else 0

/-- `src/types/todo.ts` — `Todo`.  `completedAt : number | null` is modelled
by `Option JNum` (`none` = `null`). -/
structure Todo where
  id : String
  title : String
  completed : Bool
  createdAt : JNum
  completedAt : Option JNum
deriving DecidableEq, Repr

/-- `src/types/todo.ts` — `CompletedLogEntry`. -/
structure CompletedLogEntry where
  id : String
  title : String
  completedAt : JNum
deriving DecidableEq, Repr

/-- `src/types/todo.ts` — `ActivityType`, the closed set of event kinds. -/
inductive ActivityType where
  | added
  | completed
  | reopened
  | deleted
deriving DecidableEq, Repr

/-- The string discriminant each `ActivityType` is stored as. -/
def ActivityType.str : ActivityType → String
  | .added => "added"
  | .completed => "completed"
  | .reopened => "reopened"
  | .deleted => "deleted"

/-- `src/types/todo.ts` — `ActivityEntry`.  The source field `at` is a Lean
keyword, so it is named `atMs` here. -/
structure ActivityEntry where
  id : String
  type : ActivityType
  title : String
  atMs : JNum
deriving DecidableEq, Repr

/-- `src/types/todo.ts` — `TodoAppState`. -/
structure TodoAppState where
  todos : List Todo
  sequence : JNum
  completedLog : List CompletedLogEntry
  activity : List ActivityEntry
deriving DecidableEq, Repr

/-- `src/lib/storage.ts` — `DEFAULT_STATE` / `createDefaultState`. -/
def defaultState : TodoAppState :=
  { todos := [], sequence := .fin 0, completedLog := [], activity := [] }

/-- Untyped JSON data, the result of `JSON.parse`. -/
inductive JVal where
  | jnull
  | jbool (b : Bool)
  | jnum (n : JNum)
  | jstr (s : String)
  | jarr (elems : List JVal)
  | jobj (fields : List (String × JVal))

namespace JVal

/-- JavaScript property access `v.k`; `none` models `undefined` (missing
property, or property access on a primitive). -/
def getF : JVal → String → Option JVal
  | jobj fields, k => fields.lookup k
  | _, _ => none

/-- JavaScript truthiness. -/
def truthy : JVal → Bool
  | jnull => false
  | jbool b => b
  | jnum (.fin v) => !(v == 0)
  | jnum .nan => false
  | jnum _ => true
  | jstr s => !(s == "")
  | jarr _ => true
  | jobj _ => true

/-- `typeof v === "object"` (true for `null` and arrays as well). -/
def typeofObject : JVal → Bool
  | jnull => true
  | jarr _ => true
  | jobj _ => true
  | _ => false

/-- `src/lib/storage.ts` — `isRecord`: `typeof v === "object" && v !== null`.
Of the values that are `typeof "object"` (`null`, arrays, objects) this
keeps exactly the arrays and objects. -/
def isRecord : JVal → Bool
  | jarr _ => true
  | jobj _ => true
  | _ => false

/-- The property names of an object value. -/
def objKeys : JVal → List String
  | jobj fields => fields.map Prod.fst
  | _ => []

end JVal

/-- Stable insertion used by `sortLe`: keeps `x` in front of the first
element it compares `le` to (this preserves the original relative order of
equivalent elements, as `Array.prototype.sort` — a stable sort — does). -/
def insertLe (le : α → α → Bool) (x : α) : List α → List α
  | [] => [x]
  | y :: ys => if le x y then x :: y :: ys else y :: insertLe le x ys

/-- Stable sort by a boolean "should not come after" relation; models
`Array.prototype.sort(cmp)` with `le a b := ¬(cmp a b > 0)`. -/
def sortLe (le : α → α → Bool) : List α → List α
  | [] => []
  | x :: xs => insertLe le x (sortLe le xs)

/-- Boolean check that consecutive elements are `le`-related. -/
def chainLeB (le : α → α → Bool) : List α → Bool
  | [] => true
  | [_] => true
  | x :: y :: ys => le x y && chainLeB le (y :: ys)

/-- Boolean pairwise check. -/
def pairwiseB (r : α → α → Bool) : List α → Bool
  | [] => true
  | x :: xs => xs.all (r x) && pairwiseB r xs

theorem length_insertLe (le : α → α → Bool) (x : α) (l : List α) :
    (insertLe le x l).length = l.length + 1 := by
  induction l with
  | nil => rfl
  | cons y ys ih =>
    simp only [insertLe]
    by_cases h : le x y = true
    · simp [h]
    · simp [h, ih]

theorem length_sortLe (le : α → α → Bool) (l : List α) :
    (sortLe le l).length = l.length := by
  induction l with
  | nil => rfl
  | cons x xs ih => simp [sortLe, length_insertLe, ih]

theorem mem_insertLe (le : α → α → Bool) (x a : α) (l : List α) :
    a ∈ insertLe le x l ↔ a = x ∨ a ∈ l := by
  induction l with
  | nil => simp [insertLe]
  | cons y ys ih =>
    simp only [insertLe]
    by_cases h : le x y = true
    · simp [h]
    · rw [if_neg h]
      simp only [List.mem_cons, ih]
      tauto

theorem mem_sortLe (le : α → α → Bool) (a : α) (l : List α) :
    a ∈ sortLe le l ↔ a ∈ l := by
  induction l with
  | nil => simp [sortLe]
  | cons x xs ih => simp [sortLe, mem_insertLe, ih]

theorem sortLe_eq_of_chain (le : α → α → Bool) :
    ∀ l : List α, chainLeB le l = true → sortLe le l = l
  | [] => fun _ => rfl
  | [_] => fun _ => rfl
  | x :: y :: ys => fun h => by
    have hsplit : le x y = true ∧ chainLeB le (y :: ys) = true := by
      simpa [chainLeB] using h
    have ih := sortLe_eq_of_chain le (y :: ys) hsplit.2
    show insertLe le x (sortLe le (y :: ys)) = x :: y :: ys
    rw [ih]
    simp [insertLe, hsplit.1]

theorem take_of_length_le' :
    ∀ (n : Nat) (l : List α), l.length ≤ n → l.take n = l
  | _, [], _ => by simp
  | 0, x :: xs, h => by simp at h
  | n + 1, x :: xs, h => by
    rw [List.take_succ_cons,
      take_of_length_le' n xs (by simpa using Nat.le_of_succ_le_succ (by simpa using h))]

/-! ## `src/lib/todos.ts` -/

/-- The storage base key (`TODO_STORAGE_KEY` in `src/lib/todos.ts`). -/
def TODO_STORAGE_KEY : String := "todoapp:v1"

/-- The comparator of `sortTodos`:
`(a, b) => b.createdAt !== a.createdAt ? b.createdAt - a.createdAt
         : b.id.localeCompare(a.id)`. -/
def todoCmp (a b : Todo) : JNum :=
  if JNum.jsNe b.createdAt a.createdAt then JNum.jsSub b.createdAt a.createdAt
  else .fin (strCompare b.id a.id)

/-- `a` need not move after `b` (the comparator did not return `> 0`). -/
def todoLe (a b : Todo) : Bool := !(todoCmp a b).isPos

/-- `src/lib/todos.ts` — `sortTodos`. -/
def sortTodos (todos : List Todo) : List Todo := sortLe todoLe todos

/-- `src/lib/todos.ts` — `normalizeTitle`. -/
def normalizeTitle (title : String) : String := jsTrim title

/-- `src/lib/todos.ts` — `createTodo`; `none` models the `null` rejection of
an empty-after-trim title. -/
def createTodo (id : String) (title : String) (createdAt : JNum) : Option Todo :=
  let normalizedTitle := normalizeTitle title
  if normalizedTitle = "" then none
  else some { id := id, title := normalizedTitle, completed := false,
              createdAt := createdAt, completedAt := none }

/-- `src/lib/todos.ts` — `addTodo`. -/
def addTodo (todos : List Todo) (todo : Todo) : List Todo :=
  sortTodos (todo :: todos)

/-- The body of the `map` inside `toggleTodo`, applied to one task. -/
def toggleTodoItem (id : String) (now : JNum) (todo : Todo) : Todo :=
  if todo.id != id then todo
  else
    let nextCompleted := !todo.completed
    { todo with completed := nextCompleted,
                completedAt := if nextCompleted then some now else none }

/-- `src/lib/todos.ts` — `toggleTodo`. -/
def toggleTodo (todos : List Todo) (id : String) (now : JNum) : List Todo :=
  todos.map (toggleTodoItem id now)

/-- `src/lib/todos.ts` — `deleteTodo`. -/
def deleteTodo (todos : List Todo) (id : String) : List Todo :=
  todos.filter fun todo => todo.id != id

/-- The body of the `for` loop of `coerceTodos` for one array element:
`continue` is modelled by `none`.  Note that the source checks only
`typeof candidate.createdAt === "number"` — there is no `Number.isFinite`
guard on `createdAt` (unlike `completedAt`). -/
def coerceTodoItem (item : JVal) : Option Todo :=
  if !(item.truthy && item.typeofObject) then none
  else
    match item.getF "id", item.getF "title", item.getF "completed",
          item.getF "createdAt" with
    | some (.jstr cid), some (.jstr ctitle), some (.jbool ccompleted),
      some (.jnum ccreatedAt) =>
      let title := normalizeTitle ctitle
      if title = "" then none
      else
        let completedAt : Option JNum :=
          if ccompleted then
            match item.getF "completedAt" with
            | some (.jnum c) => if c.isFinite then some c else none
            | _ => none
          else none
        some { id := cid, title := title, completed := ccompleted,
               createdAt := ccreatedAt, completedAt := completedAt }
    | _, _, _, _ => none

/-- `src/lib/todos.ts` — `coerceTodos`.  The accumulate-with-`continue`
loop is expressed as `filterMap`; a non-array (including `undefined`,
modelled by `none`) yields `[]`. -/
def coerceTodos : Option JVal → List Todo
  | some (.jarr items) => sortTodos (items.filterMap coerceTodoItem)
  | _ => []

/-! ## `src/lib/storage.ts` -/

/-- The comparator `(a, b) => b.completedAt - a.completedAt` used for the
completed log (both in `coerceCompletedLog` and `prependCompletedLog`). -/
def logCmp (a b : CompletedLogEntry) : JNum :=
  JNum.jsSub b.completedAt a.completedAt

/-- `a` need not move after `b` under `logCmp`. -/
def logLe (a b : CompletedLogEntry) : Bool := !(logCmp a b).isPos

/-- One loop iteration of `coerceCompletedLog` (title trimmed here; the
non-empty filter is applied afterwards, as in the source). -/
def coerceLogItem (item : JVal) : Option CompletedLogEntry :=
  if !(item.truthy && item.typeofObject) then none
  else
    match item.getF "id", item.getF "title", item.getF "completedAt" with
    | some (.jstr cid), some (.jstr ctitle), some (.jnum cAt) =>
      if cAt.isFinite then
        some { id := cid, title := jsTrim ctitle, completedAt := cAt }
      else none
    | _, _, _ => none

/-- `src/lib/storage.ts` — `coerceCompletedLog`. -/
def coerceCompletedLog : Option JVal → List CompletedLogEntry
  | some (.jarr items) =>
    sortLe logLe
      (((items.filterMap coerceLogItem)).filter fun entry =>
        decide (0 < entry.title.length))
  | _ => []

/-- The comparator `(a, b) => b.at - a.at` used by `coerceActivity` (note:
unlike `prependActivity` in `App.tsx`, it has no id tie-break). -/
def activityCmp (a b : ActivityEntry) : JNum := JNum.jsSub b.atMs a.atMs

/-- `a` need not move after `b` under `activityCmp`. -/
def activityLe (a b : ActivityEntry) : Bool := !(activityCmp a b).isPos

/-- One loop iteration of `coerceActivity`; the `type` field must be exactly
one of the four recognized strings. -/
def coerceActivityItem (item : JVal) : Option ActivityEntry :=
  if !(item.truthy && item.typeofObject) then none
  else
    match item.getF "id", item.getF "title", item.getF "at" with
    | some (.jstr cid), some (.jstr ctitle), some (.jnum cAt) =>
      if cAt.isFinite then
        match item.getF "type" with
        | some (.jstr "added") =>
          some { id := cid, type := .added, title := jsTrim ctitle, atMs := cAt }
        | some (.jstr "completed") =>
          some { id := cid, type := .completed, title := jsTrim ctitle, atMs := cAt }
        | some (.jstr "reopened") =>
          some { id := cid, type := .reopened, title := jsTrim ctitle, atMs := cAt }
        | some (.jstr "deleted") =>
          some { id := cid, type := .deleted, title := jsTrim ctitle, atMs := cAt }
        | _ => none
      else none
    | _, _, _ => none

/-- `src/lib/storage.ts` — `coerceActivity` (filter, sort by `at`
descending, cap at the 200 most recent). -/
def coerceActivity : Option JVal → List ActivityEntry
  | some (.jarr items) =>
    (sortLe activityLe
      (((items.filterMap coerceActivityItem)).filter fun entry =>
        decide (0 < entry.title.length))).take 200
  | _ => []

/-- `src/lib/storage.ts` — `coerceSequence`. -/
def coerceSequence : Option JVal → JNum
  | some (.jnum n) => if n.isFinite then n else .fin 0
  | _ => .fin 0

/-- `src/lib/storage.ts` — `parseState`.  The argument models the result of
reading the raw blob and running `JSON.parse` on it: `none` covers an
absent blob, an empty (falsy) blob, and unparsable text (the `catch`
branch); `some v` is the parsed value. -/
def parseState (raw : Option JVal) : Option TodoAppState :=
  match raw with
  | none => none
  | some parsed =>
    if !(JVal.isRecord parsed) then none
    else
      match parsed.getF "version" with
      | some (.jnum v) =>
        if v == .fin 1 || v == .fin 2 then
          some { todos := coerceTodos (parsed.getF "todos")
               , sequence := coerceSequence (parsed.getF "sequence")
               , completedLog :=
                   if v == .fin 2 then coerceCompletedLog (parsed.getF "completedLog")
                   else []
               , activity :=
                   if v == .fin 2 then coerceActivity (parsed.getF "activity")
                   else [] }
        else none
      | _ => none

/-- `src/lib/storage.ts` — `normalizeUsernameForKey`. -/
def normalizeUsernameForKey (username : String) : String :=
  jsToLower (jsTrim username)

/-- `src/lib/storage.ts` — `getTodoStorageKeyForUser`. -/
def getTodoStorageKeyForUser (username : String) : String :=
  let normalized := normalizeUsernameForKey username
  if normalized != "" then TODO_STORAGE_KEY ++ ":" ++ normalized
  else TODO_STORAGE_KEY

/-- `src/lib/storage.ts` — `loadTodoState`.  The storage medium is a map
from keys to the parsed content stored under them (`none` = no blob, an
empty blob, or unparsable text, exactly as in `parseState`). -/
def loadTodoState (store : String → Option JVal) (storageKey : String) :
    TodoAppState :=
  match parseState (store storageKey) with
  | some direct => direct
  | none =>
    if storageKey != TODO_STORAGE_KEY then
      match parseState (store TODO_STORAGE_KEY) with
      | some legacy => legacy
      | none => defaultState
    else defaultState

/-- The JSON shape a `Todo` takes inside the stored payload
(`completedAt : number | null` becomes a JSON number or `null`). -/
def encodeTodo (t : Todo) : JVal :=
  .jobj [("id", .jstr t.id), ("title", .jstr t.title),
         ("completed", .jbool t.completed), ("createdAt", .jnum t.createdAt),
         ("completedAt", match t.completedAt with
                         | some c => .jnum c
                         | none => .jnull)]

/-- The JSON shape of a `CompletedLogEntry` inside the stored payload. -/
def encodeLogEntry (e : CompletedLogEntry) : JVal :=
  .jobj [("id", .jstr e.id), ("title", .jstr e.title),
         ("completedAt", .jnum e.completedAt)]

/-- The JSON shape of an `ActivityEntry` inside the stored payload. -/
def encodeActivityEntry (e : ActivityEntry) : JVal :=
  .jobj [("id", .jstr e.id), ("type", .jstr e.type.str),
         ("title", .jstr e.title), ("at", .jnum e.atMs)]

/-- `src/lib/storage.ts` — `saveTodoState`: the `TodoStoragePayloadV2`
value it writes (before `JSON.stringify`), with its fields in the source's
literal order. -/
def saveTodoState (state : TodoAppState) : JVal :=
  .jobj [("version", .jnum (.fin 2)),
         ("todos", .jarr (state.todos.map encodeTodo)),
         ("sequence", .jnum state.sequence),
         ("completedLog", .jarr (state.completedLog.map encodeLogEntry)),
         ("activity", .jarr (state.activity.map encodeActivityEntry))]

mutual
/-- The effect of `JSON.parse (JSON.stringify v)` on a parsed value: the
identity, except that non-finite numbers are stringified as `null`. -/
def jsonRT : JVal → JVal
  | .jnull => .jnull
  | .jbool b => .jbool b
  | .jnum n => if n.isFinite then .jnum n else .jnull
  | .jstr s => .jstr s
  | .jarr xs => .jarr (jsonRTList xs)
  | .jobj fs => .jobj (jsonRTFields fs)

/-- `jsonRT` on every element of an array. -/
def jsonRTList : List JVal → List JVal
  | [] => []
  | x :: xs => jsonRT x :: jsonRTList xs

/-- `jsonRT` on every property of an object. -/
def jsonRTFields : List (String × JVal) → List (String × JVal)
  | [] => []
  | (k, v) :: fs => (k, jsonRT v) :: jsonRTFields fs
end

/-! ## `src/App.tsx` — activity helpers, transitions, insights -/

/-- `src/App.tsx` — `createActivity`.  The id is
`` `${at}-${seed}-${type}` ``. -/
def createActivity (type : ActivityType) (title : String) (atv : JNum)
    (seed : String) : ActivityEntry :=
  { id := atv.toStr ++ "-" ++ seed ++ "-" ++ type.str,
    type := type, title := title, atMs := atv }

/-- The comparator of `prependActivity`:
`(a, b) => b.at !== a.at ? b.at - a.at : b.id.localeCompare(a.id)`. -/
def prependActivityCmp (a b : ActivityEntry) : JNum :=
  if JNum.jsNe b.atMs a.atMs then JNum.jsSub b.atMs a.atMs
  else .fin (strCompare b.id a.id)

/-- `a` need not move after `b` under `prependActivityCmp`. -/
def prependActivityLe (a b : ActivityEntry) : Bool :=
  !(prependActivityCmp a b).isPos

/-- `src/App.tsx` — `prependActivity`. -/
def prependActivity (current : List ActivityEntry) (entry : ActivityEntry) :
    List ActivityEntry :=
  (sortLe prependActivityLe (entry :: current)).take 200

/-- `src/App.tsx` — `prependCompletedLog`. -/
def prependCompletedLog (current : List CompletedLogEntry)
    (entry : CompletedLogEntry) : List CompletedLogEntry :=
  (sortLe logLe (entry :: current)).take 300

/-- `src/App.tsx` — the state updater of `handleSubmit` (an add intent):
`inputValue` is the typed title, `now` the `Date.now()` instant (always a
finite integer). -/
def addStep (current : TodoAppState) (inputValue : String) (now : Int) :
    TodoAppState :=
  let nextSequence := JNum.jsAdd current.sequence (.fin 1)
  let createdAt : JNum := .fin now
  match createTodo (createdAt.toStr ++ "-" ++ nextSequence.toStr) inputValue
      createdAt with
  | none => current
  | some todo =>
    { current with
        todos := addTodo current.todos todo
        sequence := nextSequence
        activity := prependActivity current.activity
          (createActivity .added todo.title createdAt
            (todo.id ++ "-" ++ nextSequence.toStr)) }

/-- `src/App.tsx` — the state updater of `handleToggle` (a toggle intent)
for the task with the given id at instant `now`. -/
def toggleStep (current : TodoAppState) (id : String) (now : Int) :
    TodoAppState :=
  match current.todos.find? (fun entry => entry.id == id) with
  | none => current
  | some existing =>
    let nextCompleted := !existing.completed
    let completedLog :=
      if nextCompleted then
        prependCompletedLog current.completedLog
          { id := existing.id, title := existing.title, completedAt := .fin now }
      else current.completedLog
    { current with
        todos := toggleTodo current.todos id (.fin now)
        completedLog := completedLog
        activity := prependActivity current.activity
          (createActivity (if nextCompleted then .completed else .reopened)
            existing.title (.fin now) existing.id) }

/-- `src/App.tsx` — the state updater of `handleDelete` (a delete intent);
`id` and `title` come from the `todo` object the UI passed in, `now` is the
`Date.now()` instant.  Both the immediate branch and the
animation-scheduled branch perform exactly this update. -/
def deleteStep (current : TodoAppState) (id : String) (title : String)
    (now : Int) : TodoAppState :=
  { current with
      todos := deleteTodo current.todos id
      activity := prependActivity current.activity
        (createActivity .deleted title (.fin now) id) }

/-- `Math.round`: rounds to the nearest integer, halves toward `+∞`. -/
def jsRound (q : ℚ) : Int := ⌊q + 1 / 2⌋

/-- `src/App.tsx` — `isSameLocalDay`, parameterized by the host's local
calendar decomposition `ymd` (year, month, day-of-month of a millisecond
timestamp in the viewer's time zone).  A non-finite timestamp gives an
invalid `Date`, whose `NaN` components compare unequal. -/
def isSameLocalDay (ymd : Int → Int × Int × Int) (left right : JNum) : Bool :=
  match left, right with
  | .fin l, .fin r => ymd l == ymd r
  | _, _ => false

/-- The record computed by the `insightStats` memo in `src/App.tsx`. -/
structure InsightStats where
  total : Nat
  completed : Nat
  active : Nat
  completionRate : Int
  completedToday : Nat
  lastCompleted : Option CompletedLogEntry
deriving DecidableEq, Repr

/-- `src/App.tsx` — `insightStats`, parameterized by the host calendar
`ymd` and the query instant `now` (`Date.now()`).  JavaScript float
arithmetic of `(completed / total) * 100` is modelled exactly over `ℚ`. -/
def insightStats (ymd : Int → Int × Int × Int) (state : TodoAppState)
    (now : Int) : InsightStats :=
  let total := state.todos.length
  let completed := (state.todos.filter fun todo => todo.completed).length
  let active := total - completed
  let completionRate : Int :=
    if total == 0 then 0 else jsRound ((completed : ℚ) / (total : ℚ) * 100)
  let completedToday :=
    (state.completedLog.filter fun entry =>
      isSameLocalDay ymd entry.completedAt (.fin now)).length
  let lastCompleted := state.completedLog.head?
  { total := total, completed := completed, active := active,
    completionRate := completionRate, completedToday := completedToday,
    lastCompleted := lastCompleted }

/-! ## Claim C5 — the add / toggle / delete scenario -/

/-- C5: starting from the empty state, adding "Buy milk" at t=1000 yields one
incomplete task titled "Buy milk"; toggling it at t=2000 yields
`completed = true`, `completedAt = 2000` and a one-entry completed log;
deleting it at t=3000 empties the task list, keeps the one log entry, and
leaves three activity entries (deleted, completed, added) newest-first. -/
theorem c5_scenario_add_toggle_delete :
    (addStep defaultState "Buy milk" 1000).todos.length = 1
    ∧ ((addStep defaultState "Buy milk" 1000).todos.map fun t =>
        (t.title, t.completed)) = [("Buy milk", false)]
    ∧ ((toggleStep (addStep defaultState "Buy milk" 1000) "1000-1" 2000).todos.map
        fun t => (t.completed, t.completedAt)) = [(true, some (JNum.fin 2000))]
    ∧ (toggleStep (addStep defaultState "Buy milk" 1000) "1000-1" 2000).completedLog.length = 1
    ∧ (deleteStep (toggleStep (addStep defaultState "Buy milk" 1000) "1000-1" 2000)
        "1000-1" "Buy milk" 3000).todos = []
    ∧ (deleteStep (toggleStep (addStep defaultState "Buy milk" 1000) "1000-1" 2000)
        "1000-1" "Buy milk" 3000).completedLog.length = 1
    ∧ ((deleteStep (toggleStep (addStep defaultState "Buy milk" 1000) "1000-1" 2000)
        "1000-1" "Buy milk" 3000).activity.map ActivityEntry.type)
      = [.deleted, .completed, .added]
    ∧ ((deleteStep (toggleStep (addStep defaultState "Buy milk" 1000) "1000-1" 2000)
        "1000-1" "Buy milk" 3000).activity.map ActivityEntry.atMs)
      = [.fin 3000, .fin 2000, .fin 1000] := by
  decide

/-! ## Claim C2 — the shape of the saved payload -/

/-- C2 (counterexample to the claim as stated): the payload written by
`saveTodoState` has no field named `tasks` — its fields are
`version, todos, sequence, completedLog, activity`, with the task list
under `todos`. -/
theorem c2_counterexample :
    (saveTodoState defaultState).objKeys
      = ["version", "todos", "sequence", "completedLog", "activity"]
    ∧ (saveTodoState defaultState).getF "tasks" = none := by
  exact ⟨rfl, rfl⟩

/-- C2 (amended): for every state, the payload written by `saveTodoState`
is a record with version 2 whose fields are exactly
`{version, todos, sequence, completedLog, activity}` in that order, the
state's task list being stored under the field named `todos`. -/
theorem c2_payload_shape (s : TodoAppState) :
    (saveTodoState s).objKeys
      = ["version", "todos", "sequence", "completedLog", "activity"]
    ∧ (saveTodoState s).getF "version" = some (.jnum (.fin 2))
    ∧ (saveTodoState s).getF "todos" = some (.jarr (s.todos.map encodeTodo))
    ∧ (saveTodoState s).getF "sequence" = some (.jnum s.sequence)
    ∧ (saveTodoState s).getF "completedLog"
        = some (.jarr (s.completedLog.map encodeLogEntry))
    ∧ (saveTodoState s).getF "activity"
        = some (.jarr (s.activity.map encodeActivityEntry))
    ∧ (saveTodoState s).getF "tasks" = none := by
  exact ⟨rfl, rfl, rfl, rfl, rfl, rfl, rfl⟩

/-! ## Claim C7 — decode dispatch on the version field -/

/-- C7: decoding never fails: an absent/unparsable blob, a blob whose
`version` is missing or not a number, or one with a version other than 1
or 2 all yield the empty default state; a version-1 blob yields only the
coerced tasks and sequence, with `completedLog` and `activity` forced
empty. -/
theorem c7_parse_dispatch :
    (parseState none).getD defaultState = defaultState
    ∧ (∀ v : JVal, (∀ n, v.getF "version" ≠ some (.jnum n)) →
        (parseState (some v)).getD defaultState = defaultState)
    ∧ (∀ (v : JVal) (n : JNum), v.getF "version" = some (.jnum n) →
        n ≠ .fin 1 → n ≠ .fin 2 →
        (parseState (some v)).getD defaultState = defaultState)
    ∧ (∀ v : JVal, v.getF "version" = some (.jnum (.fin 1)) →
        parseState (some v)
          = some { todos := coerceTodos (v.getF "todos")
                 , sequence := coerceSequence (v.getF "sequence")
                 , completedLog := []
                 , activity := [] })
    ∧ (∀ (store : String → Option JVal) (key : String),
        parseState (store key) = none → parseState (store TODO_STORAGE_KEY) = none →
        loadTodoState store key = defaultState) := by
  refine ⟨rfl, ?_, ?_, ?_, ?_⟩
  · intro v h
    cases v with
    | jobj fields =>
      simp only [parseState, JVal.isRecord, Bool.not_true, Bool.false_eq_true,
        if_false]
      cases hv : (JVal.jobj fields).getF "version" with
      | none => rfl
      | some x =>
        cases x with
        | jnum n => exact absurd hv (h n)
        | jnull => rfl
        | jbool b => rfl
        | jstr s => rfl
        | jarr xs => rfl
        | jobj fs => rfl
    | jnull => rfl
    | jbool b => rfl
    | jnum n => rfl
    | jstr s => rfl
    | jarr xs =>
      simp only [parseState, JVal.isRecord, Bool.not_true, Bool.false_eq_true,
        if_false]
      rfl
  · intro v n hv h1 h2
    cases v with
    | jobj fields =>
      simp only [parseState, JVal.isRecord, Bool.not_true, Bool.false_eq_true,
        if_false]
      rw [hv]
      have hb : (n == JNum.fin 1 || n == JNum.fin 2) = false := by
        cases hn1 : n == JNum.fin 1 with
        | true => exact absurd (eq_of_beq hn1) h1
        | false =>
          cases hn2 : n == JNum.fin 2 with
          | true => exact absurd (eq_of_beq hn2) h2
          | false => simp
      simp [hb]
    | jnull => simp [JVal.getF] at hv
    | jbool b => simp [JVal.getF] at hv
    | jnum m => simp [JVal.getF] at hv
    | jstr s => simp [JVal.getF] at hv
    | jarr xs => simp [JVal.getF] at hv
  · intro v hv
    cases v with
    | jobj fields =>
      simp only [parseState, JVal.isRecord, Bool.not_true, Bool.false_eq_true,
        if_false]
      rw [hv]
      rfl
    | jnull => simp [JVal.getF] at hv
    | jbool b => simp [JVal.getF] at hv
    | jnum m => simp [JVal.getF] at hv
    | jstr s => simp [JVal.getF] at hv
    | jarr xs => simp [JVal.getF] at hv
  · intro store key hdirect hlegacy
    unfold loadTodoState
    rw [hdirect]
    by_cases hk : (key != TODO_STORAGE_KEY) = true
    · rw [if_pos hk, hlegacy]
    · rw [if_neg hk]

/-- Witness for C7: a version-3 blob and a version-1 blob with one stored
task, decoded concretely through the theorem. -/
theorem c7_parse_dispatch_witness :
    (parseState (some (.jobj [("version", .jnum (.fin 3))]))).getD defaultState
      = defaultState
    ∧ parseState (some (.jobj
        [("version", .jnum (.fin 1)),
         ("todos", .jarr [.jobj
           [("id", .jstr "a"), ("title", .jstr "x"),
            ("completed", .jbool false), ("createdAt", .jnum (.fin 5))]]),
         ("sequence", .jnum (.fin 2))]))
      = some { todos := [{ id := "a", title := "x", completed := false,
                           createdAt := .fin 5, completedAt := none }]
             , sequence := .fin 2, completedLog := [], activity := [] } := by
  constructor
  · exact c7_parse_dispatch.2.2.1 (.jobj [("version", .jnum (.fin 3))]) (.fin 3)
      rfl (by decide) (by decide)
  · rw [c7_parse_dispatch.2.2.2.1 (.jobj
        [("version", .jnum (.fin 1)),
         ("todos", .jarr [.jobj
           [("id", .jstr "a"), ("title", .jstr "x"),
            ("completed", .jbool false), ("createdAt", .jnum (.fin 5))]]),
         ("sequence", .jnum (.fin 2))]) rfl]
    rfl

/-! ## Shared helper lemmas about the transition building blocks -/

theorem filter_eq_self_of (p : α → Bool) (l : List α)
    (h : ∀ a ∈ l, p a = true) : l.filter p = l := by
  induction l with
  | nil => rfl
  | cons x xs ih =>
    rw [List.filter_cons, if_pos (h x (by simp))]
    rw [ih fun a ha => h a (by simp [ha])]

theorem length_prependActivity (cur : List ActivityEntry) (e : ActivityEntry) :
    (prependActivity cur e).length = min 200 (cur.length + 1) := by
  unfold prependActivity
  rw [List.length_take, length_sortLe, List.length_cons]

theorem mem_prependActivity_of_le (cur : List ActivityEntry)
    (e a : ActivityEntry) (h : cur.length ≤ 199) :
    a ∈ prependActivity cur e ↔ a = e ∨ a ∈ cur := by
  unfold prependActivity
  rw [take_of_length_le' 200 _ (by rw [length_sortLe, List.length_cons]; omega)]
  rw [mem_sortLe]
  simp

/-! ## Claim C9 — per-user storage keys and legacy fallback -/

/-- C9: the per-user key is the base key plus `":"` plus the trimmed,
lower-cased username; a whitespace-only username collapses to the bare
base key; and when the namespaced key parses to no state the loader falls
back to the un-namespaced base key before yielding the default. -/
theorem c9_user_key_fallback :
    (∀ u : String, normalizeUsernameForKey u ≠ "" →
      getTodoStorageKeyForUser u
        = TODO_STORAGE_KEY ++ ":" ++ jsToLower (jsTrim u))
    ∧ (∀ u : String, jsTrim u = "" →
        getTodoStorageKeyForUser u = TODO_STORAGE_KEY)
    ∧ (∀ (store : String → Option JVal) (key : String),
        parseState (store key) = none → key ≠ TODO_STORAGE_KEY →
        loadTodoState store key
          = (parseState (store TODO_STORAGE_KEY)).getD defaultState) := by
  refine ⟨?_, ?_, ?_⟩
  · intro u h
    unfold getTodoStorageKeyForUser
    rw [if_pos (by simpa [bne_iff_ne] using h)]
    rfl
  · intro u h
    unfold getTodoStorageKeyForUser normalizeUsernameForKey
    rw [h]
    rfl
  · intro store key hdirect hkey
    unfold loadTodoState
    rw [hdirect, if_pos (by simpa [bne_iff_ne] using hkey)]
    cases parseState (store TODO_STORAGE_KEY) with
    | none => rfl
    | some legacy => rfl

/-- Witness for C9: the username `" Alice "` maps to `todoapp:v1:alice`, a
whitespace-only username maps to the bare base key, and loading from an
empty store under the namespaced key yields the default state. -/
theorem c9_user_key_fallback_witness :
    getTodoStorageKeyForUser " Alice " = "todoapp:v1:alice"
    ∧ getTodoStorageKeyForUser "   " = "todoapp:v1"
    ∧ loadTodoState (fun _ => none) "todoapp:v1:alice" = defaultState := by
  refine ⟨?_, ?_, ?_⟩
  · rw [c9_user_key_fallback.1 " Alice " (by decide)]
    rfl
  · exact c9_user_key_fallback.2.1 "   " (by decide)
  · rw [c9_user_key_fallback.2.2 (fun _ => none) "todoapp:v1:alice" rfl
      (by decide)]
    rfl

/-! ## Claim C10 — deleting an unknown id still logs activity -/

/-- C10: a delete intent whose task id matches no task leaves the task
list, completed log, and sequence unchanged, yet still applies the
`deleted` activity prepend built from the supplied title and timestamp
(growing the activity list by one whenever it is below its 200-entry cap). -/
theorem c10_delete_unknown_id (s : TodoAppState) (tid ttitle : String)
    (now : Int) (h : ∀ t ∈ s.todos, t.id ≠ tid) :
    (deleteStep s tid ttitle now).todos = s.todos
    ∧ (deleteStep s tid ttitle now).completedLog = s.completedLog
    ∧ (deleteStep s tid ttitle now).sequence = s.sequence
    ∧ (deleteStep s tid ttitle now).activity
        = prependActivity s.activity
            (createActivity .deleted ttitle (.fin now) tid)
    ∧ (s.activity.length ≤ 199 →
        (deleteStep s tid ttitle now).activity.length
          = s.activity.length + 1) := by
  refine ⟨?_, rfl, rfl, rfl, ?_⟩
  · show deleteTodo s.todos tid = s.todos
    unfold deleteTodo
    exact filter_eq_self_of _ _ fun t ht => by
      simpa [bne_iff_ne] using h t ht
  · intro hlen
    show (prependActivity s.activity _).length = _
    rw [length_prependActivity]
    omega

/-- Witness for C10: deleting the unknown id `"b"` from a one-task state
leaves the tasks and log alone but records a `deleted` activity entry. -/
theorem c10_delete_unknown_id_witness :
    (deleteStep
      { todos := [{ id := "a", title := "x", completed := false,
                    createdAt := .fin 1, completedAt := none }]
      , sequence := .fin 1, completedLog := [], activity := [] }
      "b" "ghost" 7).todos
      = [{ id := "a", title := "x", completed := false,
           createdAt := .fin 1, completedAt := none }]
    ∧ (deleteStep
      { todos := [{ id := "a", title := "x", completed := false,
                    createdAt := .fin 1, completedAt := none }]
      , sequence := .fin 1, completedLog := [], activity := [] }
      "b" "ghost" 7).activity.length = 1 := by
  refine ⟨?_, ?_⟩
  · exact (c10_delete_unknown_id
      { todos := [{ id := "a", title := "x", completed := false,
                    createdAt := .fin 1, completedAt := none }]
      , sequence := .fin 1, completedLog := [], activity := [] }
      "b" "ghost" 7 (by decide)).1
  · exact (c10_delete_unknown_id
      { todos := [{ id := "a", title := "x", completed := false,
                    createdAt := .fin 1, completedAt := none }]
      , sequence := .fin 1, completedLog := [], activity := [] }
      "b" "ghost" 7 (by decide)).2.2.2.2 (by decide)

/-! ## Claim C8 — insights: completion rate and completed-today count -/

/-- C8: the completion rate is `round(completed / total * 100)` with the
rate defined as 0 when there are no tasks (no division error), and
`completedToday` counts exactly the completed-log entries whose
`completedAt` falls on the same local calendar day (per the host calendar
`ymd`) as the query instant `now`. -/
theorem c8_insights (ymd : Int → Int × Int × Int) (s : TodoAppState)
    (now : Int) :
    (insightStats ymd s now).completionRate
      = (if s.todos.length = 0 then 0
         else jsRound (((s.todos.filter fun t => t.completed).length : ℚ)
                        / (s.todos.length : ℚ) * 100))
    ∧ (s.todos.length = 0 → (insightStats ymd s now).completionRate = 0)
    ∧ (insightStats ymd s now).completedToday
        = (s.completedLog.filter fun entry =>
            match entry.completedAt with
            | .fin a => ymd a == ymd now
            | _ => false).length := by
  refine ⟨?_, ?_, ?_⟩
  · by_cases h : s.todos.length = 0 <;> simp [insightStats, h]
  · intro h
    simp [insightStats, h]
  · show (s.completedLog.filter fun entry =>
        isSameLocalDay ymd entry.completedAt (.fin now)).length = _
    rw [List.filter_congr]
    intro entry _
    cases entry.completedAt with
    | fin a => rfl
    | nan => rfl
    | inf => rfl
    | ninf => rfl

/-- Witness for C8: with 3 tasks of which 1 is completed the rate is 33;
with no tasks the rate is 0 (and a log entry dated the same `ymd` day as
`now` is counted). -/
theorem c8_insights_witness :
    (insightStats (fun _ => (2024, 1, 1))
      { todos :=
          [{ id := "a", title := "x", completed := true, createdAt := .fin 3,
             completedAt := some (.fin 9) },
           { id := "b", title := "y", completed := false, createdAt := .fin 2,
             completedAt := none },
           { id := "c", title := "z", completed := false, createdAt := .fin 1,
             completedAt := none }]
      , sequence := .fin 3
      , completedLog := [{ id := "a", title := "x", completedAt := .fin 9 }]
      , activity := [] } 10).completionRate = 33
    ∧ (insightStats (fun _ => (2024, 1, 1))
      { todos :=
          [{ id := "a", title := "x", completed := true, createdAt := .fin 3,
             completedAt := some (.fin 9) },
           { id := "b", title := "y", completed := false, createdAt := .fin 2,
             completedAt := none },
           { id := "c", title := "z", completed := false, createdAt := .fin 1,
             completedAt := none }]
      , sequence := .fin 3
      , completedLog := [{ id := "a", title := "x", completedAt := .fin 9 }]
      , activity := [] } 10).completedToday = 1
    ∧ (insightStats (fun _ => (2024, 1, 1)) defaultState 10).completionRate
        = 0 := by
  refine ⟨?_, ?_, ?_⟩
  · rw [(c8_insights (fun _ => (2024, 1, 1))
      { todos :=
          [{ id := "a", title := "x", completed := true, createdAt := .fin 3,
             completedAt := some (.fin 9) },
           { id := "b", title := "y", completed := false, createdAt := .fin 2,
             completedAt := none },
           { id := "c", title := "z", completed := false, createdAt := .fin 1,
             completedAt := none }]
      , sequence := .fin 3
      , completedLog := [{ id := "a", title := "x", completedAt := .fin 9 }]
      , activity := [] } 10).1]
    norm_num [jsRound]
  · rw [(c8_insights (fun _ => (2024, 1, 1))
      { todos :=
          [{ id := "a", title := "x", completed := true, createdAt := .fin 3,
             completedAt := some (.fin 9) },
           { id := "b", title := "y", completed := false, createdAt := .fin 2,
             completedAt := none },
           { id := "c", title := "z", completed := false, createdAt := .fin 1,
             completedAt := none }]
      , sequence := .fin 3
      , completedLog := [{ id := "a", title := "x", completedAt := .fin 9 }]
      , activity := [] } 10).2.2]
    rfl
  · exact (c8_insights (fun _ => (2024, 1, 1)) defaultState 10).2.1 rfl

/-! ## Claim C3 — task-record coercion rules -/

/-- C3 (counterexample to the claim as stated): a stored task record whose
`createdAt` is `Infinity` (which `JSON.parse` produces for a literal such
as `1e999`) is NOT discarded by `coerceTodos` — the source checks only
`typeof createdAt === "number"`, with no `Number.isFinite` guard. -/
theorem c3_counterexample :
    coerceTodos (some (.jarr [.jobj
      [("id", .jstr "a"), ("title", .jstr "x"),
       ("completed", .jbool false), ("createdAt", .jnum .inf)]]))
      = [{ id := "a", title := "x", completed := false, createdAt := .inf,
           completedAt := none }] := by
  decide

/-- C3 (amended): a raw record is accepted as a task exactly when it
supplies a string `id`, a string `title` that is non-empty after trimming,
a boolean `completed`, and a `createdAt` of number type — finiteness of
`createdAt` is NOT required (`NaN`/`Infinity` values are kept, not
discarded); `completedAt` is kept only when `completed` is true and
`completedAt` is a finite number, and is forced absent otherwise. -/
theorem c3_task_coercion :
    (∀ (v : JVal) (t : Todo), coerceTodoItem v = some t →
      v.getF "id" = some (.jstr t.id)
      ∧ (∃ rawTitle, v.getF "title" = some (.jstr rawTitle)
          ∧ t.title = jsTrim rawTitle ∧ t.title ≠ "")
      ∧ v.getF "completed" = some (.jbool t.completed)
      ∧ v.getF "createdAt" = some (.jnum t.createdAt)
      ∧ t.completedAt
          = (if t.completed then
               match v.getF "completedAt" with
               | some (.jnum c) => if c.isFinite then some c else none
               | _ => none
             else none))
    ∧ (∀ (v : JVal) (cid ctitle : String) (cc : Bool) (cn : JNum),
        v.getF "id" = some (.jstr cid) →
        v.getF "title" = some (.jstr ctitle) →
        v.getF "completed" = some (.jbool cc) →
        v.getF "createdAt" = some (.jnum cn) →
        jsTrim ctitle ≠ "" →
        coerceTodoItem v
          = some { id := cid, title := jsTrim ctitle, completed := cc,
                   createdAt := cn,
                   completedAt :=
                     if cc then
                       match v.getF "completedAt" with
                       | some (.jnum c) => if c.isFinite then some c else none
                       | _ => none
                     else none }) := by
  constructor
  · intro v t h
    unfold coerceTodoItem at h
    split at h
    · exact absurd h (by simp)
    · split at h
      · next cid ctitle ccompleted ccreatedAt hid htitle hcompleted
            hcreatedAt =>
        rw [hid, htitle, hcompleted, hcreatedAt]
        by_cases hempty : normalizeTitle ctitle = ""
        · rw [if_pos hempty] at h
          exact absurd h (by simp)
        · rw [if_neg hempty] at h
          simp only [Option.some.injEq] at h
          subst h
          exact ⟨rfl, ⟨ctitle, rfl, rfl, hempty⟩, rfl, rfl, rfl⟩
      · exact absurd h (by simp)
  · intro v cid ctitle cc cn h1 h2 h3 h4 h5
    cases v with
    | jobj fields =>
      unfold coerceTodoItem
      rw [if_neg (by simp [JVal.truthy, JVal.typeofObject])]
      rw [h1, h2, h3, h4]
      show (if normalizeTitle ctitle = "" then none else _) = _
      rw [if_neg (by simpa [normalizeTitle] using h5)]
      rfl
    | jnull => simp [JVal.getF] at h1
    | jbool b => simp [JVal.getF] at h1
    | jnum m => simp [JVal.getF] at h1
    | jstr s => simp [JVal.getF] at h1
    | jarr xs => simp [JVal.getF] at h1

/-- Witness for C3: a record with a true `completed` flag but a `NaN`
`completedAt` is accepted with `completedAt` forced absent, the title
trimmed, and `createdAt` kept. -/
theorem c3_task_coercion_witness :
    coerceTodoItem (.jobj
      [("id", .jstr "b"), ("title", .jstr " hi "),
       ("completed", .jbool true), ("createdAt", .jnum (.fin 4)),
       ("completedAt", .jnum .nan)])
      = some { id := "b", title := "hi", completed := true,
               createdAt := .fin 4, completedAt := none } := by
  exact (c3_task_coercion.2 (.jobj
      [("id", .jstr "b"), ("title", .jstr " hi "),
       ("completed", .jbool true), ("createdAt", .jnum (.fin 4)),
       ("completedAt", .jnum .nan)])
    "b" " hi " true (.fin 4) rfl rfl rfl rfl (by decide)).trans (by decide)

/-! ## Claim C4 — double toggle -/

theorem toggleTodoItem_id (id : String) (n : JNum) (t : Todo) :
    (toggleTodoItem id n t).id = t.id := by
  unfold toggleTodoItem
  by_cases h : (t.id != id) = true
  · rw [if_pos h]
  · rw [if_neg h]

theorem toggleTodoItem_twice (id : String) (n : JNum) (t : Todo) :
    toggleTodoItem id n (toggleTodoItem id n t)
      = if t.id != id then t
        else { t with completedAt := if t.completed then some n else none } := by
  by_cases h : (t.id != id) = true
  · have h1 : toggleTodoItem id n t = t := by
      unfold toggleTodoItem
      rw [if_pos h]
    rw [if_pos h, h1, h1]
  · have h1 : toggleTodoItem id n t
        = { t with completed := !t.completed,
                   completedAt := if !t.completed then some n else none } := by
      unfold toggleTodoItem
      rw [if_neg h]
    rw [if_neg h, h1]
    unfold toggleTodoItem
    rw [if_neg (by simpa using h)]
    simp [Bool.not_not]

theorem toggleTodo_twice_eq (l : List Todo) (id : String) (n : JNum) :
    toggleTodo (toggleTodo l id n) id n
      = l.map fun t =>
          if t.id != id then t
          else { t with completedAt := if t.completed then some n else none } := by
  unfold toggleTodo
  rw [List.map_map]
  exact List.map_congr_left fun t _ => toggleTodoItem_twice id n t

theorem find?_toggleTodo (l : List Todo) (id : String) (n : JNum) :
    (toggleTodo l id n).find? (fun t => t.id == id)
      = (l.find? fun t => t.id == id).map (toggleTodoItem id n) := by
  induction l with
  | nil => rfl
  | cons x xs ih =>
    show ((toggleTodoItem id n x) :: toggleTodo xs id n).find?
        (fun t => t.id == id)
      = ((x :: xs).find? fun t => t.id == id).map (toggleTodoItem id n)
    rw [List.find?_cons, List.find?_cons]
    have hpx : ((toggleTodoItem id n x).id == id) = (x.id == id) := by
      rw [toggleTodoItem_id]
    rw [hpx]
    cases h : (x.id == id) with
    | true => rfl
    | false => exact ih

theorem toggleStep_eq_of_find (s : TodoAppState) (id : String) (now : Int)
    (ex : Todo) (h : s.todos.find? (fun t => t.id == id) = some ex) :
    toggleStep s id now
      = { s with
          todos := toggleTodo s.todos id (.fin now)
          completedLog :=
            if !ex.completed then
              prependCompletedLog s.completedLog
                { id := ex.id, title := ex.title, completedAt := .fin now }
            else s.completedLog
          activity := prependActivity s.activity
            (createActivity (if !ex.completed then .completed else .reopened)
              ex.title (.fin now) ex.id) } := by
  unfold toggleStep
  rw [h]

/-- C4 (counterexample to the claim as stated): take the state holding the
single task `{id "a", completed, completedAt = 5}` and toggle it twice at
`now = 9`: `completed` returns to `true` but `completedAt` ends as `9`,
not the original `5`, so the double toggle does not restore the original
`completedAt` value. -/
theorem c4_counterexample :
    ((toggleStep (toggleStep
        { todos := [{ id := "a", title := "x", completed := true,
                      createdAt := .fin 0, completedAt := some (.fin 5) }]
        , sequence := .fin 1, completedLog := [], activity := [] }
        "a" 9) "a" 9).todos.map fun t => (t.completed, t.completedAt))
      = [(true, some (JNum.fin 9))] := by
  decide

/-- C4 (amended): toggling a present task twice with a fixed `now` restores
every task's `completed` flag; the toggled task's `completedAt` ends as
`now` when the task was originally completed and as absent when it was not
(so the original `completedAt` is restored exactly when it already held
that value); and, provided the activity list holds at most 198 entries, the
activity list grows by exactly two entries — the first toggle's
`completed`/`reopened` entry and the second's opposite entry, both
present in the final list. -/
theorem c4_toggle_twice (s : TodoAppState) (id : String) (now : Int)
    (ex : Todo) (hfind : s.todos.find? (fun t => t.id == id) = some ex)
    (hlen : s.activity.length ≤ 198) :
    (toggleStep (toggleStep s id now) id now).todos
      = (s.todos.map fun t =>
          if t.id != id then t
          else { t with completedAt :=
                   if t.completed then some (.fin now) else none })
    ∧ (toggleStep (toggleStep s id now) id now).todos.map Todo.completed
        = s.todos.map Todo.completed
    ∧ (toggleStep (toggleStep s id now) id now).activity.length
        = s.activity.length + 2
    ∧ createActivity (if !ex.completed then .completed else .reopened)
        ex.title (.fin now) ex.id
        ∈ (toggleStep (toggleStep s id now) id now).activity
    ∧ createActivity (if !ex.completed then .reopened else .completed)
        ex.title (.fin now) ex.id
        ∈ (toggleStep (toggleStep s id now) id now).activity := by
  have hex0 := List.find?_some hfind
  have hex : ex.id = id := by simpa using hex0
  have hfind1 : (toggleStep s id now).todos.find? (fun t => t.id == id)
      = some (toggleTodoItem id (.fin now) ex) := by
    rw [toggleStep_eq_of_find s id now ex hfind]
    show (toggleTodo s.todos id (.fin now)).find? _ = _
    rw [find?_toggleTodo, hfind]
    rfl
  have hitem : toggleTodoItem id (.fin now) ex
      = { ex with completed := !ex.completed,
                  completedAt := if !ex.completed then some (.fin now)
                                 else none } := by
    unfold toggleTodoItem
    rw [if_neg (by simp [hex])]
  have hs2 := toggleStep_eq_of_find (toggleStep s id now) id now
    (toggleTodoItem id (.fin now) ex) hfind1
  have hs1 := toggleStep_eq_of_find s id now ex hfind
  have hact1 : (toggleStep s id now).activity
      = prependActivity s.activity
          (createActivity (if !ex.completed then .completed else .reopened)
            ex.title (.fin now) ex.id) := by
    rw [hs1]
  have hlen1 : (toggleStep s id now).activity.length = s.activity.length + 1 := by
    rw [hact1, length_prependActivity]
    omega
  have htype2 : (if !(toggleTodoItem id (.fin now) ex).completed then
        ActivityType.completed else ActivityType.reopened)
      = (if !ex.completed then ActivityType.reopened
         else ActivityType.completed) := by
    rw [hitem]
    cases hc : ex.completed <;> rfl
  have hact2 : (toggleStep (toggleStep s id now) id now).activity
      = prependActivity (toggleStep s id now).activity
          (createActivity (if !ex.completed then .reopened else .completed)
            ex.title (.fin now) ex.id) := by
    rw [hs2, htype2, hitem]
  refine ⟨?_, ?_, ?_, ?_, ?_⟩
  · rw [hs2, hs1]
    show toggleTodo (toggleTodo s.todos id (.fin now)) id (.fin now) = _
    exact toggleTodo_twice_eq s.todos id (.fin now)
  · rw [hs2, hs1]
    show (toggleTodo (toggleTodo s.todos id (.fin now)) id (.fin now)).map
        Todo.completed = _
    rw [toggleTodo_twice_eq, List.map_map]
    refine List.map_congr_left fun t _ => ?_
    by_cases h : (t.id != id) = true
    · rw [Function.comp_apply, if_pos h]
    · rw [Function.comp_apply, if_neg h]
  · rw [hact2, length_prependActivity, hlen1]
    omega
  · rw [hact2]
    rw [mem_prependActivity_of_le _ _ _ (by omega)]
    right
    rw [hact1]
    rw [mem_prependActivity_of_le _ _ _ (by omega)]
    left
    rfl
  · rw [hact2]
    rw [mem_prependActivity_of_le _ _ _ (by omega)]
    left
    rfl

/-- Witness for C4: a one-task incomplete state toggled twice at `now = 9`:
the task list is restored (its `completedAt` was absent), and the activity
list gains a `completed` and a `reopened` entry. -/
theorem c4_toggle_twice_witness :
    ((toggleStep (toggleStep
        { todos := [{ id := "a", title := "x", completed := false,
                      createdAt := .fin 0, completedAt := none }]
        , sequence := .fin 1, completedLog := [], activity := [] }
        "a" 9) "a" 9).todos.map Todo.completed = [false])
    ∧ (toggleStep (toggleStep
        { todos := [{ id := "a", title := "x", completed := false,
                      createdAt := .fin 0, completedAt := none }]
        , sequence := .fin 1, completedLog := [], activity := [] }
        "a" 9) "a" 9).activity.length = 2 := by
  have h := c4_toggle_twice
    { todos := [{ id := "a", title := "x", completed := false,
                  createdAt := .fin 0, completedAt := none }]
    , sequence := .fin 1, completedLog := [], activity := [] }
    "a" 9
    { id := "a", title := "x", completed := false, createdAt := .fin 0,
      completedAt := none }
    (by decide) (by decide)
  exact ⟨by rw [h.2.1]; decide, by rw [h.2.2.1]; decide⟩

/-! ## Claim C6 — the canonical task order -/

theorem charsLt_irrefl : ∀ u : List Char, charsLt u u = false
  | [] => rfl
  | a :: as => by
    simp only [charsLt, lt_irrefl, if_false]
    exact charsLt_irrefl as

theorem charsLt_asymm : ∀ u v : List Char,
    charsLt u v = true → charsLt v u = false
  | [], [] => by simp [charsLt]
  | [], _ :: _ => by simp [charsLt]
  | _ :: _, [] => by simp [charsLt]
  | a :: as, b :: bs => by
    simp only [charsLt]
    by_cases hab : a.toNat < b.toNat
    · intro _
      rw [if_neg (by omega), if_pos hab]
    · rw [if_neg hab]
      by_cases hba : b.toNat < a.toNat
      · simp [hba]
      · rw [if_neg hba, if_neg hba, if_neg hab]
        exact charsLt_asymm as bs

theorem charsLt_trans : ∀ u v w : List Char,
    charsLt u v = true → charsLt v w = true → charsLt u w = true
  | [], [], _ => by simp [charsLt]
  | [], _ :: _, [] => by simp [charsLt]
  | [], _ :: _, _ :: _ => by simp [charsLt]
  | _ :: _, [], _ => by simp [charsLt]
  | _ :: _, _ :: _, [] => by simp [charsLt]
  | a :: as, b :: bs, c :: cs => by
    simp only [charsLt]
    by_cases hab : a.toNat < b.toNat
    · rw [if_pos hab]
      by_cases hbc : b.toNat < c.toNat
      · rw [if_pos hbc, if_pos (by omega)]
        exact fun _ _ => rfl
      · rw [if_neg hbc]
        by_cases hcb : c.toNat < b.toNat
        · simp [hcb]
        · rw [if_neg hcb]
          intro _ _
          rw [if_pos (by omega)]
    · rw [if_neg hab]
      by_cases hba : b.toNat < a.toNat
      · simp [hba]
      · rw [if_neg hba]
        intro h1
        by_cases hbc : b.toNat < c.toNat
        · intro _
          rw [if_pos (by omega)]
        · rw [if_neg hbc]
          by_cases hcb : c.toNat < b.toNat
          · simp [hcb]
          · rw [if_neg hcb]
            intro h2
            rw [if_neg (by omega), if_neg (by omega)]
            exact charsLt_trans as bs cs h1 h2

theorem charsLt_conn : ∀ u v : List Char,
    charsLt u v = false → charsLt v u = false → u = v
  | [], [] => by simp
  | [], _ :: _ => by simp [charsLt]
  | _ :: _, [] => by simp [charsLt]
  | a :: as, b :: bs => by
    simp only [charsLt]
    by_cases hab : a.toNat < b.toNat
    · simp [hab]
    · rw [if_neg hab]
      by_cases hba : b.toNat < a.toNat
      · simp [hba]
      · rw [if_neg hba, if_neg hab, if_neg hba]
        intro h1 h2
        have hn : a.toNat = b.toNat := by omega
        have hchar : a = b := Char.eq_of_val_eq (UInt32.ext hn)
        rw [hchar, charsLt_conn as bs h1 h2]

theorem strLtB_asymm (a b : String) (h : strLtB a b = true) :
    strLtB b a = false := charsLt_asymm a.data b.data h

theorem strLtB_conn (a b : String) (h1 : strLtB a b = false)
    (h2 : strLtB b a = false) : a = b := by
  cases a with
  | mk da =>
    cases b with
    | mk db =>
      have : da = db := charsLt_conn da db h1 h2
      rw [this]

/-- The claim's canonical strict order on tasks, read under JavaScript
number semantics: `a` comes before `b` when `a.createdAt > b.createdAt`
(JavaScript `>`, under which an `Infinity` timestamp exceeds every finite
one), or the timestamps are equal (`Infinity === Infinity` included) and
`a.id > b.id` lexicographically.  On `NaN`-free timestamps — and JSON text
cannot denote `NaN` — structural equality of `JNum` coincides with
JavaScript `===`. -/
def keyGtB (a b : Todo) : Bool :=
  JNum.jsGt a.createdAt b.createdAt
  || (a.createdAt == b.createdAt && strLtB b.id a.id)

/-- Two tasks do not share both `createdAt` and `id`. -/
def keyDistinctB (a b : Todo) : Bool :=
  !(a.createdAt == b.createdAt && a.id == b.id)

/-- The claim's statement form: position `i` precedes position `j` exactly
when task `i` is `keyGtB`-greater than task `j`. -/
def posOrdered (l : List Todo) : Prop :=
  ∀ (i j : Nat) (hi : i < l.length) (hj : j < l.length), i ≠ j →
    (i < j ↔ keyGtB (l.get ⟨i, hi⟩) (l.get ⟨j, hj⟩) = true)

theorem jsGt_irrefl (a : JNum) : JNum.jsGt a a = false := by
  cases a <;> simp [JNum.jsGt]

theorem jsGt_asymm (a b : JNum) (h : JNum.jsGt a b = true) :
    JNum.jsGt b a = false := by
  cases a <;> cases b <;> revert h <;> simp [JNum.jsGt] <;> omega

theorem jsGt_trans (a b c : JNum) (h1 : JNum.jsGt a b = true)
    (h2 : JNum.jsGt b c = true) : JNum.jsGt a c = true := by
  cases a <;> cases b <;> cases c <;> revert h1 h2 <;> simp [JNum.jsGt] <;>
    omega

theorem jsGt_conn (a b : JNum) (ha : a ≠ .nan) (hb : b ≠ .nan)
    (h1 : JNum.jsGt a b = false) (h2 : JNum.jsGt b a = false) : a = b := by
  cases a <;> cases b <;> simp_all [JNum.jsGt] <;> omega

theorem jsGt_false_cases (a b : JNum) (ha : a ≠ .nan) (hb : b ≠ .nan)
    (h : JNum.jsGt b a = false) : JNum.jsGt a b = true ∨ a = b := by
  by_cases hab : JNum.jsGt a b = true
  · exact Or.inl hab
  · exact Or.inr (jsGt_conn a b ha hb (by simpa using hab) h)

theorem isPos_fin_strCompare (x y : String) :
    (JNum.fin (strCompare y x)).isPos = strLtB x y := by
  unfold strCompare
  by_cases h1 : strLtB y x = true
  · rw [if_pos h1, strLtB_asymm _ _ h1]
    decide
  · rw [if_neg h1]
    by_cases h2 : strLtB x y = true
    · rw [if_pos h2, h2]
      decide
    · have h2f : strLtB x y = false := by simpa using h2
      rw [if_neg h2, h2f]
      decide

theorem isPos_todoCmp (a b : Todo) (ha : a.createdAt ≠ .nan)
    (hb : b.createdAt ≠ .nan) : (todoCmp a b).isPos = keyGtB b a := by
  unfold todoCmp keyGtB
  cases hca : a.createdAt with
  | nan => exact absurd hca ha
  | fin xa =>
    cases hcb : b.createdAt with
    | nan => exact absurd hcb hb
    | fin xb =>
      by_cases hxy : xb = xa
      · subst hxy
        rw [if_neg (by simp [JNum.jsNe, JNum.jsEq])]
        show (JNum.fin (strCompare b.id a.id)).isPos
          = (JNum.jsGt (JNum.fin xb) (JNum.fin xb)
             || ((JNum.fin xb == JNum.fin xb) && strLtB a.id b.id))
        have e1 : JNum.jsGt (JNum.fin xb) (JNum.fin xb) = false := by
          simp [JNum.jsGt]
        rw [e1, beq_self_eq_true, Bool.false_or, Bool.true_and]
        exact isPos_fin_strCompare a.id b.id
      · rw [if_pos (by simp [JNum.jsNe, JNum.jsEq]; omega)]
        show (JNum.jsSub (JNum.fin xb) (JNum.fin xa)).isPos
          = (JNum.jsGt (JNum.fin xb) (JNum.fin xa)
             || ((JNum.fin xb == JNum.fin xa) && strLtB a.id b.id))
        have e2 : (JNum.fin xb == JNum.fin xa) = false := by
          simpa using hxy
        rw [e2, Bool.false_and, Bool.or_false]
        show decide (0 < xb + -xa) = decide (xa < xb)
        by_cases h : xa < xb
        · rw [decide_eq_true h, decide_eq_true (by omega : (0:Int) < xb + -xa)]
        · rw [decide_eq_false h,
            decide_eq_false (by omega : ¬(0:Int) < xb + -xa)]
    | inf => rfl
    | ninf => rfl
  | inf =>
    cases hcb : b.createdAt with
    | nan => exact absurd hcb hb
    | fin xb => rfl
    | inf =>
      rw [if_neg (by simp [JNum.jsNe, JNum.jsEq])]
      show (JNum.fin (strCompare b.id a.id)).isPos
        = (JNum.jsGt JNum.inf JNum.inf
           || ((JNum.inf == JNum.inf) && strLtB a.id b.id))
      rw [show JNum.jsGt JNum.inf JNum.inf = false from rfl,
        beq_self_eq_true, Bool.false_or, Bool.true_and]
      exact isPos_fin_strCompare a.id b.id
    | ninf => rfl
  | ninf =>
    cases hcb : b.createdAt with
    | nan => exact absurd hcb hb
    | fin xb => rfl
    | inf => rfl
    | ninf =>
      rw [if_neg (by simp [JNum.jsNe, JNum.jsEq])]
      show (JNum.fin (strCompare b.id a.id)).isPos
        = (JNum.jsGt JNum.ninf JNum.ninf
           || ((JNum.ninf == JNum.ninf) && strLtB a.id b.id))
      rw [show JNum.jsGt JNum.ninf JNum.ninf = false from rfl,
        beq_self_eq_true, Bool.false_or, Bool.true_and]
      exact isPos_fin_strCompare a.id b.id

theorem todoLe_eq_not_keyGt (a b : Todo) (ha : a.createdAt ≠ .nan)
    (hb : b.createdAt ≠ .nan) : todoLe a b = !(keyGtB b a) := by
  unfold todoLe
  rw [isPos_todoCmp a b ha hb]

theorem keyGt_trichotomy (a b : Todo) (ha : a.createdAt ≠ .nan)
    (hb : b.createdAt ≠ .nan) :
    keyGtB a b = true ∨ keyGtB b a = true
    ∨ (a.createdAt == b.createdAt && a.id == b.id) = true := by
  by_cases hg1 : JNum.jsGt a.createdAt b.createdAt = true
  · left
    unfold keyGtB
    rw [hg1, Bool.true_or]
  · by_cases hg2 : JNum.jsGt b.createdAt a.createdAt = true
    · right; left
      unfold keyGtB
      rw [hg2, Bool.true_or]
    · have heq : a.createdAt = b.createdAt :=
        jsGt_conn _ _ ha hb (by simpa using hg1) (by simpa using hg2)
      by_cases h3 : strLtB b.id a.id = true
      · left
        unfold keyGtB
        rw [heq, jsGt_irrefl, beq_self_eq_true, Bool.false_or, Bool.true_and]
        exact h3
      · by_cases h4 : strLtB a.id b.id = true
        · right; left
          unfold keyGtB
          rw [← heq, jsGt_irrefl, beq_self_eq_true, Bool.false_or,
            Bool.true_and]
          exact h4
        · right; right
          have hid := strLtB_conn a.id b.id (by simpa using h4)
            (by simpa using h3)
          rw [heq, hid]
          simp

theorem keyGt_asymm (a b : Todo) (h : keyGtB a b = true) :
    keyGtB b a = false := by
  unfold keyGtB at h ⊢
  rw [Bool.or_eq_true] at h
  rcases h with h | h
  · have e1 := jsGt_asymm _ _ h
    have e2 : (b.createdAt == a.createdAt) = false := by
      cases hbe : (b.createdAt == a.createdAt)
      · rfl
      · have heq : b.createdAt = a.createdAt := eq_of_beq hbe
        rw [heq, jsGt_irrefl] at h
        cases h
    rw [e1, e2, Bool.false_and, Bool.or_false]
  · rw [Bool.and_eq_true] at h
    obtain ⟨h1, h2⟩ := h
    have heq : a.createdAt = b.createdAt := eq_of_beq h1
    rw [← heq, jsGt_irrefl, beq_self_eq_true, Bool.false_or, Bool.true_and]
    exact strLtB_asymm _ _ h2

theorem strLtB_neg_trans (a b c : String) (h1 : strLtB a b = false)
    (h2 : strLtB b c = false) : strLtB a c = false := by
  by_cases hba : strLtB b a = true
  · by_cases hac : strLtB a c = true
    · have hbc : strLtB b c = true := charsLt_trans b.data a.data c.data hba hac
      rw [h2] at hbc
      cases hbc
    · simpa using hac
  · have hab : a = b := strLtB_conn a b h1 (by simpa using hba)
    exact hab ▸ h2

theorem todoLe_total (a b : Todo) (ha : a.createdAt ≠ .nan)
    (hb : b.createdAt ≠ .nan) :
    todoLe a b = true ∨ todoLe b a = true := by
  rw [todoLe_eq_not_keyGt a b ha hb, todoLe_eq_not_keyGt b a hb ha]
  by_cases h : keyGtB b a = true
  · right
    rw [keyGt_asymm b a h]
    rfl
  · left
    have hf : keyGtB b a = false := by simpa using h
    rw [hf]
    rfl

theorem keyGt_false_iff (a b : Todo) :
    keyGtB b a = false
      ↔ JNum.jsGt b.createdAt a.createdAt = false
        ∧ (b.createdAt = a.createdAt → strLtB a.id b.id = false) := by
  unfold keyGtB
  rw [Bool.or_eq_false_iff, Bool.and_eq_false_iff]
  constructor
  · rintro ⟨h1, h2⟩
    refine ⟨h1, fun he => ?_⟩
    rcases h2 with h2 | h2
    · rw [beq_eq_false_iff_ne] at h2
      exact absurd he h2
    · exact h2
  · rintro ⟨h1, h2⟩
    refine ⟨h1, ?_⟩
    by_cases he : b.createdAt = a.createdAt
    · right
      exact h2 he
    · left
      rw [beq_eq_false_iff_ne]
      exact he

theorem todoLe_trans (a b c : Todo) (ha : a.createdAt ≠ .nan)
    (hb : b.createdAt ≠ .nan) (hc : c.createdAt ≠ .nan)
    (h1 : todoLe a b = true) (h2 : todoLe b c = true) :
    todoLe a c = true := by
  rw [todoLe_eq_not_keyGt a b ha hb] at h1
  rw [todoLe_eq_not_keyGt b c hb hc] at h2
  rw [todoLe_eq_not_keyGt a c ha hc]
  have hba : keyGtB b a = false := by
    cases hx : keyGtB b a
    · rfl
    · rw [hx] at h1
      cases h1
  have hcb : keyGtB c b = false := by
    cases hx : keyGtB c b
    · rfl
    · rw [hx] at h2
      cases h2
  obtain ⟨p1, p2⟩ := (keyGt_false_iff a b).mp hba
  obtain ⟨q1, q2⟩ := (keyGt_false_iff b c).mp hcb
  have hca : keyGtB c a = false := by
    apply (keyGt_false_iff a c).mpr
    constructor
    · cases hx : JNum.jsGt c.createdAt a.createdAt
      · rfl
      · exfalso
        rcases jsGt_false_cases a.createdAt b.createdAt ha hb p1
          with hab | hab
        · rcases jsGt_false_cases b.createdAt c.createdAt hb hc q1
            with hbc | hbc
          · have hac := jsGt_trans _ _ _ hab hbc
            rw [jsGt_asymm _ _ hac] at hx
            cases hx
          · rw [← hbc] at hx
            rw [jsGt_asymm _ _ hab] at hx
            cases hx
        · rcases jsGt_false_cases b.createdAt c.createdAt hb hc q1
            with hbc | hbc
          · rw [hab] at hx
            rw [jsGt_asymm _ _ hbc] at hx
            cases hx
          · rw [hab, hbc] at hx
            rw [jsGt_irrefl] at hx
            cases hx
    · intro hcaeq
      rcases jsGt_false_cases a.createdAt b.createdAt ha hb p1
        with hab | hab
      · exfalso
        rw [← hcaeq] at hab
        rw [hab] at q1
        cases q1
      · rcases jsGt_false_cases b.createdAt c.createdAt hb hc q1
          with hbc | hbc
        · exfalso
          rw [hcaeq, ← hab] at hbc
          rw [jsGt_irrefl] at hbc
          cases hbc
        · exact strLtB_neg_trans a.id b.id c.id (p2 hab.symm) (q2 hbc.symm)
  rw [hca]
  rfl

theorem pairwise_insertLe (le : α → α → Bool) (P : α → Prop)
    (total : ∀ a b, P a → P b → le a b = true ∨ le b a = true)
    (htrans : ∀ a b c, P a → P b → P c →
      le a b = true → le b c = true → le a c = true) :
    ∀ (x : α) (l : List α), P x → (∀ y ∈ l, P y) →
      l.Pairwise (fun a b => le a b = true) →
      (insertLe le x l).Pairwise (fun a b => le a b = true)
  | x, [], _, _, _ => by simp [insertLe]
  | x, y :: ys, hx, hl, hpw => by
    rw [insertLe]
    by_cases h : le x y = true
    · rw [if_pos h]
      refine List.Pairwise.cons ?_ hpw
      intro z hz
      rcases List.mem_cons.mp hz with rfl | hzys
      · exact h
      · exact htrans x y z hx (hl y (by simp)) (hl z (by simp [hzys])) h
          (List.rel_of_pairwise_cons hpw hzys)
    · rw [if_neg h]
      have hyx : le y x = true := by
        rcases total x y hx (hl y (by simp)) with h' | h'
        · exact absurd h' h
        · exact h'
      refine List.Pairwise.cons ?_ ?_
      · intro z hz
        rcases (mem_insertLe le x z ys).mp hz with rfl | hzys
        · exact hyx
        · exact List.rel_of_pairwise_cons hpw hzys
      · exact pairwise_insertLe le P total htrans x ys hx
          (fun y' hy' => hl y' (by simp [hy'])) hpw.of_cons

theorem pairwise_sortLe (le : α → α → Bool) (P : α → Prop)
    (total : ∀ a b, P a → P b → le a b = true ∨ le b a = true)
    (htrans : ∀ a b c, P a → P b → P c →
      le a b = true → le b c = true → le a c = true) :
    ∀ l : List α, (∀ y ∈ l, P y) →
      (sortLe le l).Pairwise (fun a b => le a b = true)
  | [], _ => by simp [sortLe]
  | x :: xs, hl => by
    rw [sortLe]
    exact pairwise_insertLe le P total htrans x (sortLe le xs)
      (hl x (by simp))
      (fun y hy => hl y (by simp [(mem_sortLe le y xs).mp hy]))
      (pairwise_sortLe le P total htrans xs fun y hy => hl y (by simp [hy]))

theorem pairwiseB_get (r : α → α → Bool) :
    ∀ (l : List α), pairwiseB r l = true →
      ∀ (i j : Nat) (hi : i < l.length) (hj : j < l.length), i < j →
        r (l.get ⟨i, hi⟩) (l.get ⟨j, hj⟩) = true
  | [], _, i, _, hi, _, _ => absurd hi (by simp)
  | x :: xs, h, 0, 0, _, _, hij => absurd hij (by omega)
  | x :: xs, h, 0, j + 1, _, hj, _ => by
    have hall : ∀ y ∈ xs, r x y = true := by
      have hh := h
      simp only [pairwiseB, Bool.and_eq_true, List.all_eq_true] at hh
      exact hh.1
    exact hall _ (xs.get_mem _ _)
  | x :: xs, h, i + 1, j + 1, hi, hj, hij => by
    have htail : pairwiseB r xs = true := by
      have hh := h
      simp only [pairwiseB, Bool.and_eq_true] at hh
      exact hh.2
    exact pairwiseB_get r xs htail i j (by simpa using hi) (by simpa using hj)
      (by omega)
  | x :: xs, h, i + 1, 0, _, _, hij => absurd hij (by omega)

theorem posOrdered_of_pairwise (l : List Todo)
    (hnn : ∀ t ∈ l, t.createdAt ≠ .nan)
    (hpw : l.Pairwise (fun a b => todoLe a b = true))
    (hdist : pairwiseB keyDistinctB l = true) :
    posOrdered l := by
  intro i j hi hj hne
  have hni := hnn _ (l.get_mem i hi)
  have hnj := hnn _ (l.get_mem j hj)
  constructor
  · intro hij
    have hle := List.pairwise_iff_get.mp hpw ⟨i, hi⟩ ⟨j, hj⟩ hij
    have hds := pairwiseB_get keyDistinctB l hdist i j hi hj hij
    have hng : keyGtB (l.get ⟨j, hj⟩) (l.get ⟨i, hi⟩) = false := by
      rw [todoLe_eq_not_keyGt _ _ hni hnj] at hle
      cases hx : keyGtB (l.get ⟨j, hj⟩) (l.get ⟨i, hi⟩)
      · rfl
      · rw [hx] at hle
        cases hle
    rcases keyGt_trichotomy (l.get ⟨i, hi⟩) (l.get ⟨j, hj⟩) hni hnj
      with h | h | h
    · exact h
    · rw [h] at hng
      cases hng
    · unfold keyDistinctB at hds
      rw [h] at hds
      cases hds
  · intro hkey
    rcases Nat.lt_trichotomy i j with h | h | h
    · exact h
    · exact absurd h hne
    · have hle := List.pairwise_iff_get.mp hpw ⟨j, hj⟩ ⟨i, hi⟩ h
      have hng : keyGtB (l.get ⟨i, hi⟩) (l.get ⟨j, hj⟩) = false := by
        rw [todoLe_eq_not_keyGt _ _ hnj hni] at hle
        cases hx : keyGtB (l.get ⟨i, hi⟩) (l.get ⟨j, hj⟩)
        · rfl
        · rw [hx] at hle
          cases hle
      rw [hkey] at hng
      cases hng

theorem posOrdered_sortTodos (l : List Todo)
    (hnn : ∀ t ∈ l, t.createdAt ≠ .nan)
    (hdist : pairwiseB keyDistinctB (sortTodos l) = true) :
    posOrdered (sortTodos l) := by
  apply posOrdered_of_pairwise
  · intro t ht
    exact hnn t ((mem_sortLe todoLe t l).mp ht)
  · refine pairwise_sortLe todoLe (fun t => t.createdAt ≠ .nan) ?_ ?_ l hnn
    · intro a b hpa hpb
      exact todoLe_total a b hpa hpb
    · intro a b c hpa hpb hpc h1 h2
      exact todoLe_trans a b c hpa hpb hpc h1 h2
  · exact hdist

theorem posOrdered_nil : posOrdered [] := by
  intro i j hi
  exact absurd hi (by simp)

/-- C6 (counterexample to the claim as stated): a stored blob may contain
the same task record twice; `coerceTodos` keeps both copies, and then the
first copy appears before the second although it is neither
`createdAt`-greater nor id-greater, so the claimed position-iff-order
characterization fails after this decode. -/
theorem c6_counterexample :
    coerceTodos (some (.jarr [
      .jobj [("id", .jstr "a"), ("title", .jstr "x"),
             ("completed", .jbool false), ("createdAt", .jnum (.fin 5))],
      .jobj [("id", .jstr "a"), ("title", .jstr "x"),
             ("completed", .jbool false), ("createdAt", .jnum (.fin 5))]]))
      = [{ id := "a", title := "x", completed := false, createdAt := .fin 5,
           completedAt := none },
         { id := "a", title := "x", completed := false, createdAt := .fin 5,
           completedAt := none }]
    ∧ ¬ posOrdered (coerceTodos (some (.jarr [
      .jobj [("id", .jstr "a"), ("title", .jstr "x"),
             ("completed", .jbool false), ("createdAt", .jnum (.fin 5))],
      .jobj [("id", .jstr "a"), ("title", .jstr "x"),
             ("completed", .jbool false), ("createdAt", .jnum (.fin 5))]]))) := by
  refine ⟨by decide, ?_⟩
  intro hpos
  have h01 := hpos 0 1 (by decide) (by decide) (by decide)
  have hk := h01.mp (by decide)
  revert hk
  decide

/-- C6 (amended): after an add, and after a decode of stored data, the task
list satisfies "position `i` precedes position `j` iff task `i` has greater
`createdAt` under JavaScript `>` (so an `Infinity` timestamp, which
`JSON.parse` produces for `1e999`, sorts before every finite one), or the
timestamps are strictly equal and task `i` has the lexicographically
greater `id`" — provided no two tasks share both `createdAt` and `id`
(duplicated records in a hand-edited blob violate this).  The `≠ NaN`
hypotheses are vacuous for decoded data, since JSON text cannot denote
`NaN`, and for adds, whose timestamps come from `Date.now()`. -/
theorem c6_sorted_order :
    (∀ (todos : List Todo) (todo : Todo),
      (∀ t ∈ addTodo todos todo, t.createdAt ≠ JNum.nan) →
      pairwiseB keyDistinctB (addTodo todos todo) = true →
      posOrdered (addTodo todos todo))
    ∧ (∀ raw : Option JVal,
      (∀ t ∈ coerceTodos raw, t.createdAt ≠ JNum.nan) →
      pairwiseB keyDistinctB (coerceTodos raw) = true →
      posOrdered (coerceTodos raw)) := by
  constructor
  · intro todos todo hnn hdist
    show posOrdered (sortTodos (todo :: todos))
    apply posOrdered_sortTodos
    · intro t ht
      exact hnn t ((mem_sortLe todoLe t (todo :: todos)).mpr ht)
    · exact hdist
  · intro raw hnn hdist
    match raw with
    | none => exact posOrdered_nil
    | some .jnull => exact posOrdered_nil
    | some (.jbool b) => exact posOrdered_nil
    | some (.jnum n) => exact posOrdered_nil
    | some (.jstr s) => exact posOrdered_nil
    | some (.jobj fs) => exact posOrdered_nil
    | some (.jarr xs) =>
      show posOrdered (sortTodos (xs.filterMap coerceTodoItem))
      apply posOrdered_sortTodos
      · intro t ht
        exact hnn t
          ((mem_sortLe todoLe t (xs.filterMap coerceTodoItem)).mpr ht)
      · exact hdist

/-- Witness for C6: an add of a fresh task onto a one-task list, and a
decode of a two-record blob in which one record carries an `Infinity`
`createdAt` (as `JSON.parse` yields for `1e999`), both yield
position-iff-order task lists — the `Infinity` task sorts first, as
JavaScript `>` dictates. -/
theorem c6_sorted_order_witness :
    posOrdered (addTodo
      [{ id := "1000-1", title := "x", completed := false,
         createdAt := .fin 1000, completedAt := none }]
      { id := "2000-2", title := "y", completed := false,
        createdAt := .fin 2000, completedAt := none })
    ∧ posOrdered (coerceTodos (some (.jarr [
        .jobj [("id", .jstr "a"), ("title", .jstr "x"),
               ("completed", .jbool false), ("createdAt", .jnum (.fin 5))],
        .jobj [("id", .jstr "b"), ("title", .jstr "y"),
               ("completed", .jbool false), ("createdAt", .jnum .inf)]]))) := by
  constructor
  · exact c6_sorted_order.1
      [{ id := "1000-1", title := "x", completed := false,
         createdAt := .fin 1000, completedAt := none }]
      { id := "2000-2", title := "y", completed := false,
        createdAt := .fin 2000, completedAt := none }
      (by decide) (by decide)
  · exact c6_sorted_order.2 (some (.jarr [
      .jobj [("id", .jstr "a"), ("title", .jstr "x"),
             ("completed", .jbool false), ("createdAt", .jnum (.fin 5))],
      .jobj [("id", .jstr "b"), ("title", .jstr "y"),
             ("completed", .jbool false), ("createdAt", .jnum .inf)]]))
      (by decide) (by decide)

/-! ## Claim C1 — encode/decode round trip -/

/-- `completedAt` is present (and finite) exactly when the task is
completed — the data-model invariant in a decidable form. -/
def completedAtOk (t : Todo) : Bool :=
  match t.completed, t.completedAt with
  | true, some c => c.isFinite
  | false, none => true
  | _, _ => false

/-- The full persistence invariant a state must satisfy for the
encode/decode round trip to be the identity: titles trimmed and non-empty,
timestamps and the sequence finite, all three lists in their canonical
stored order, and the activity list within its 200-entry cap. -/
def RoundTripInv (s : TodoAppState) : Prop :=
  (∀ t ∈ s.todos, jsTrim t.title = t.title ∧ t.title ≠ ""
    ∧ t.createdAt.isFinite = true ∧ completedAtOk t = true)
  ∧ chainLeB todoLe s.todos = true
  ∧ (∀ e ∈ s.completedLog, jsTrim e.title = e.title ∧ e.title ≠ ""
      ∧ e.completedAt.isFinite = true)
  ∧ chainLeB logLe s.completedLog = true
  ∧ (∀ e ∈ s.activity, jsTrim e.title = e.title ∧ e.title ≠ ""
      ∧ e.atMs.isFinite = true)
  ∧ chainLeB activityLe s.activity = true
  ∧ s.activity.length ≤ 200
  ∧ s.sequence.isFinite = true

theorem filterMap_map_eq_self (dec : β → Option α) (enc : α → β) :
    ∀ l : List α, (∀ a ∈ l, dec (enc a) = some a) →
      (l.map enc).filterMap dec = l
  | [], _ => rfl
  | x :: xs, h => by
    rw [List.map_cons, List.filterMap_cons, h x (by simp),
      filterMap_map_eq_self dec enc xs fun a ha => h a (by simp [ha])]

theorem jsonRTList_map_eq (f : α → JVal) :
    ∀ l : List α, (∀ a ∈ l, jsonRT (f a) = f a) →
      jsonRTList (l.map f) = l.map f
  | [], _ => rfl
  | x :: xs, h => by
    rw [List.map_cons]
    show jsonRT (f x) :: jsonRTList (xs.map f) = f x :: xs.map f
    rw [h x (by simp), jsonRTList_map_eq f xs fun a ha => h a (by simp [ha])]

theorem str_length_pos (s : String) (h : s ≠ "") : 0 < s.length := by
  cases s with
  | mk data =>
    cases data with
    | nil => exact absurd rfl h
    | cons c cs => simp [String.length]

theorem parseState_v2 (v : JVal)
    (h : v.getF "version" = some (.jnum (.fin 2))) :
    parseState (some v) = some
      { todos := coerceTodos (v.getF "todos")
      , sequence := coerceSequence (v.getF "sequence")
      , completedLog := coerceCompletedLog (v.getF "completedLog")
      , activity := coerceActivity (v.getF "activity") } := by
  cases v with
  | jobj fields =>
    simp only [parseState]
    rw [if_neg (by simp [JVal.isRecord]), h]
    rfl
  | jnull => simp [JVal.getF] at h
  | jbool b => simp [JVal.getF] at h
  | jnum m => simp [JVal.getF] at h
  | jstr s => simp [JVal.getF] at h
  | jarr xs => simp [JVal.getF] at h

theorem coerceTodoItem_encodeTodo (t : Todo) (htrim : jsTrim t.title = t.title)
    (hne : t.title ≠ "") (hok : completedAtOk t = true) :
    coerceTodoItem (encodeTodo t) = some t := by
  have hid : (encodeTodo t).getF "id" = some (.jstr t.id) := rfl
  have htl : (encodeTodo t).getF "title" = some (.jstr t.title) := rfl
  have hcp : (encodeTodo t).getF "completed" = some (.jbool t.completed) := rfl
  have hcr : (encodeTodo t).getF "createdAt" = some (.jnum t.createdAt) := rfl
  have hca : (encodeTodo t).getF "completedAt"
      = some (match t.completedAt with
              | some c => JVal.jnum c
              | none => JVal.jnull) := rfl
  unfold coerceTodoItem
  rw [if_neg (by simp [encodeTodo, JVal.truthy, JVal.typeofObject])]
  rw [hid, htl, hcp, hcr]
  have hnorm : normalizeTitle t.title = t.title := htrim
  show (if normalizeTitle t.title = "" then none else _) = some t
  rw [if_neg (by rw [hnorm]; exact hne)]
  cases hcomp : t.completed with
  | true =>
    cases hcat : t.completedAt with
    | some c =>
      have hcf : c.isFinite = true := by
        have hh := hok
        unfold completedAtOk at hh
        rw [hcomp, hcat] at hh
        exact hh
      rw [hca, hcat]
      show some (⟨t.id, normalizeTitle t.title, true, t.createdAt,
          if c.isFinite then some c else none⟩ : Todo) = some t
      rw [hnorm, if_pos hcf]
      have ht : (⟨t.id, t.title, true, t.createdAt, some c⟩ : Todo) = t := by
        rw [← hcomp, ← hcat]
      rw [ht]
    | none =>
      exfalso
      have hh := hok
      unfold completedAtOk at hh
      rw [hcomp, hcat] at hh
      cases hh
  | false =>
    cases hcat : t.completedAt with
    | some c =>
      exfalso
      have hh := hok
      unfold completedAtOk at hh
      rw [hcomp, hcat] at hh
      cases hh
    | none =>
      show some (⟨t.id, normalizeTitle t.title, false, t.createdAt,
          none⟩ : Todo) = some t
      rw [hnorm]
      have ht : (⟨t.id, t.title, false, t.createdAt, none⟩ : Todo) = t := by
        rw [← hcomp, ← hcat]
      rw [ht]

theorem coerceLogItem_encodeLogEntry (e : CompletedLogEntry)
    (htrim : jsTrim e.title = e.title)
    (hfin : e.completedAt.isFinite = true) :
    coerceLogItem (encodeLogEntry e) = some e := by
  have hid : (encodeLogEntry e).getF "id" = some (.jstr e.id) := rfl
  have htl : (encodeLogEntry e).getF "title" = some (.jstr e.title) := rfl
  have hcaf : (encodeLogEntry e).getF "completedAt"
      = some (.jnum e.completedAt) := rfl
  unfold coerceLogItem
  rw [if_neg (by simp [encodeLogEntry, JVal.truthy, JVal.typeofObject])]
  rw [hid, htl, hcaf]
  show (if e.completedAt.isFinite = true then
      some (⟨e.id, jsTrim e.title, e.completedAt⟩ : CompletedLogEntry)
    else none) = some e
  rw [if_pos hfin, htrim]

theorem coerceActivityItem_encodeActivityEntry (e : ActivityEntry)
    (htrim : jsTrim e.title = e.title) (hfin : e.atMs.isFinite = true) :
    coerceActivityItem (encodeActivityEntry e) = some e := by
  have hid : (encodeActivityEntry e).getF "id" = some (.jstr e.id) := rfl
  have htl : (encodeActivityEntry e).getF "title" = some (.jstr e.title) := rfl
  have hat : (encodeActivityEntry e).getF "at" = some (.jnum e.atMs) := rfl
  have hty : (encodeActivityEntry e).getF "type"
      = some (.jstr e.type.str) := rfl
  unfold coerceActivityItem
  rw [if_neg (by simp [encodeActivityEntry, JVal.truthy, JVal.typeofObject])]
  rw [hid, htl, hat]
  show (if e.atMs.isFinite = true then _ else none) = some e
  rw [if_pos hfin, hty]
  cases he : e.type with
  | added =>
    show some (⟨e.id, .added, jsTrim e.title, e.atMs⟩ : ActivityEntry) = some e
    rw [htrim, ← he]
  | completed =>
    show some (⟨e.id, .completed, jsTrim e.title, e.atMs⟩ : ActivityEntry) = some e
    rw [htrim, ← he]
  | reopened =>
    show some (⟨e.id, .reopened, jsTrim e.title, e.atMs⟩ : ActivityEntry) = some e
    rw [htrim, ← he]
  | deleted =>
    show some (⟨e.id, .deleted, jsTrim e.title, e.atMs⟩ : ActivityEntry) = some e
    rw [htrim, ← he]

theorem jsonRT_encodeTodo (t : Todo) (hfin : t.createdAt.isFinite = true)
    (hok : completedAtOk t = true) :
    jsonRT (encodeTodo t) = encodeTodo t := by
  have hcfin : ∀ c, t.completedAt = some c → c.isFinite = true := by
    intro c hc
    unfold completedAtOk at hok
    cases hcp : t.completed
    · rw [hcp, hc] at hok
      cases hok
    · rw [hcp, hc] at hok
      exact hok
  unfold encodeTodo
  simp only [jsonRT, jsonRTFields, jsonRTList, hfin, if_true]
  cases hcat : t.completedAt with
  | none => rfl
  | some c => simp [jsonRT, hcfin c hcat]

theorem jsonRT_encodeLogEntry (e : CompletedLogEntry)
    (hfin : e.completedAt.isFinite = true) :
    jsonRT (encodeLogEntry e) = encodeLogEntry e := by
  unfold encodeLogEntry
  simp only [jsonRT, jsonRTFields, jsonRTList, hfin, if_true]

theorem jsonRT_encodeActivityEntry (e : ActivityEntry)
    (hfin : e.atMs.isFinite = true) :
    jsonRT (encodeActivityEntry e) = encodeActivityEntry e := by
  unfold encodeActivityEntry
  simp only [jsonRT, jsonRTFields, jsonRTList, hfin, if_true]

theorem jsonRT_saveTodoState (s : TodoAppState)
    (h1 : ∀ t ∈ s.todos, t.createdAt.isFinite = true ∧ completedAtOk t = true)
    (h2 : ∀ e ∈ s.completedLog, e.completedAt.isFinite = true)
    (h3 : ∀ e ∈ s.activity, e.atMs.isFinite = true)
    (h4 : s.sequence.isFinite = true) :
    jsonRT (saveTodoState s) = saveTodoState s := by
  unfold saveTodoState
  simp only [jsonRT, jsonRTFields, jsonRTList, h4, if_true]
  rw [jsonRTList_map_eq encodeTodo s.todos
      (fun t ht => jsonRT_encodeTodo t (h1 t ht).1 (h1 t ht).2),
    jsonRTList_map_eq encodeLogEntry s.completedLog
      (fun e he => jsonRT_encodeLogEntry e (h2 e he)),
    jsonRTList_map_eq encodeActivityEntry s.activity
      (fun e he => jsonRT_encodeActivityEntry e (h3 e he))]
  rfl

/-- C1 (amended): writing a state with `saveTodoState`, passing it through
`JSON.stringify`/`JSON.parse`, and decoding it with `parseState` reproduces
the state exactly — for every state satisfying the full persistence
invariant `RoundTripInv` (trimmed non-empty titles everywhere, finite
timestamps and sequence, each list in its canonical stored order, and at
most 200 activity entries), which strengthens the claim's three stated
invariants. -/
theorem c1_roundtrip (s : TodoAppState) (hinv : RoundTripInv s) :
    parseState (some (jsonRT (saveTodoState s))) = some s := by
  obtain ⟨hT, hTs, hL, hLs, hA, hAs, hAlen, hSeq⟩ := hinv
  rw [jsonRT_saveTodoState s
    (fun t ht => ⟨(hT t ht).2.2.1, (hT t ht).2.2.2⟩)
    (fun e he => (hL e he).2.2) (fun e he => (hA e he).2.2) hSeq]
  rw [parseState_v2 (saveTodoState s) rfl]
  have hTodos : coerceTodos ((saveTodoState s).getF "todos") = s.todos := by
    show sortTodos ((s.todos.map encodeTodo).filterMap coerceTodoItem)
      = s.todos
    rw [filterMap_map_eq_self coerceTodoItem encodeTodo s.todos
      (fun t ht => coerceTodoItem_encodeTodo t (hT t ht).1 (hT t ht).2.1
        (hT t ht).2.2.2)]
    exact sortLe_eq_of_chain todoLe s.todos hTs
  have hSeqC : coerceSequence ((saveTodoState s).getF "sequence")
      = s.sequence := by
    show (if s.sequence.isFinite = true then s.sequence else .fin 0)
      = s.sequence
    rw [if_pos hSeq]
  have hLog : coerceCompletedLog ((saveTodoState s).getF "completedLog")
      = s.completedLog := by
    show sortLe logLe
        (((s.completedLog.map encodeLogEntry).filterMap coerceLogItem).filter
          fun entry => decide (0 < entry.title.length))
      = s.completedLog
    rw [filterMap_map_eq_self coerceLogItem encodeLogEntry s.completedLog
      (fun e he => coerceLogItem_encodeLogEntry e (hL e he).1 (hL e he).2.2)]
    rw [filter_eq_self_of _ s.completedLog
      (fun e he => decide_eq_true (str_length_pos e.title (hL e he).2.1))]
    exact sortLe_eq_of_chain logLe s.completedLog hLs
  have hAct : coerceActivity ((saveTodoState s).getF "activity")
      = s.activity := by
    show (sortLe activityLe
        (((s.activity.map encodeActivityEntry).filterMap
            coerceActivityItem).filter
          fun entry => decide (0 < entry.title.length))).take 200
      = s.activity
    rw [filterMap_map_eq_self coerceActivityItem encodeActivityEntry
      s.activity
      (fun e he => coerceActivityItem_encodeActivityEntry e (hA e he).1
        (hA e he).2.2)]
    rw [filter_eq_self_of _ s.activity
      (fun e he => decide_eq_true (str_length_pos e.title (hA e he).2.1))]
    rw [sortLe_eq_of_chain activityLe s.activity hAs]
    exact take_of_length_le' 200 s.activity hAlen
  rw [hTodos, hSeqC, hLog, hAct]

/-- C1 (counterexample to the claim as stated): the one-task state whose
title is `" x"` satisfies every invariant the claim lists (title non-empty
after trimming, `completedAt` absent matching `completed = false`, no
activity entries), yet the encode/decode round trip trims the title to
`"x"` and so does not reproduce an equal state. -/
theorem c1_counterexample :
    jsTrim " x" ≠ ""
    ∧ parseState (some (jsonRT (saveTodoState
        { todos := [{ id := "a", title := " x", completed := false,
                      createdAt := .fin 1, completedAt := none }]
        , sequence := .fin 0, completedLog := [], activity := [] })))
      = some { todos := [{ id := "a", title := "x", completed := false,
                           createdAt := .fin 1, completedAt := none }]
             , sequence := .fin 0, completedLog := [], activity := [] }
    ∧ parseState (some (jsonRT (saveTodoState
        { todos := [{ id := "a", title := " x", completed := false,
                      createdAt := .fin 1, completedAt := none }]
        , sequence := .fin 0, completedLog := [], activity := [] })))
      ≠ some { todos := [{ id := "a", title := " x", completed := false,
                           createdAt := .fin 1, completedAt := none }]
             , sequence := .fin 0, completedLog := [], activity := [] } := by
  decide

/-- Witness for C1 (amended): a concrete reachable state — one completed
task, one log entry, two activity entries — round-trips exactly. -/
theorem c1_roundtrip_witness :
    parseState (some (jsonRT (saveTodoState
      { todos := [{ id := "1000-1", title := "Buy milk", completed := true,
                    createdAt := .fin 1000, completedAt := some (.fin 2000) }]
      , sequence := .fin 1
      , completedLog := [{ id := "1000-1", title := "Buy milk",
                           completedAt := .fin 2000 }]
      , activity := [{ id := "2000-1000-1-completed", type := .completed,
                       title := "Buy milk", atMs := .fin 2000 },
                     { id := "1000-1000-1-1-added", type := .added,
                       title := "Buy milk", atMs := .fin 1000 }] })))
    = some
      { todos := [{ id := "1000-1", title := "Buy milk", completed := true,
                    createdAt := .fin 1000, completedAt := some (.fin 2000) }]
      , sequence := .fin 1
      , completedLog := [{ id := "1000-1", title := "Buy milk",
                           completedAt := .fin 2000 }]
      , activity := [{ id := "2000-1000-1-completed", type := .completed,
                       title := "Buy milk", atMs := .fin 2000 },
                     { id := "1000-1000-1-1-added", type := .added,
                       title := "Buy milk", atMs := .fin 1000 }] } :=
  c1_roundtrip
    { todos := [{ id := "1000-1", title := "Buy milk", completed := true,
                  createdAt := .fin 1000, completedAt := some (.fin 2000) }]
    , sequence := .fin 1
    , completedLog := [{ id := "1000-1", title := "Buy milk",
                         completedAt := .fin 2000 }]
    , activity := [{ id := "2000-1000-1-completed", type := .completed,
                     title := "Buy milk", atMs := .fin 2000 },
                   { id := "1000-1000-1-1-added", type := .added,
                     title := "Buy milk", atMs := .fin 1000 }] }
    (by constructor
        · decide
        · refine ⟨by decide, by decide, by decide, by decide, by decide,
            by decide, by decide⟩)
